import Mathlib

/-!
# WiFi-Simulator: a shallow embedding of the three simulators

The repository has three translation units, `wifi4.cpp`, `wifi5.cpp` and
`wifi6.cpp`; each is embedded in a namespace of its own (`wifi4`, `wifi5`,
`wifi6`), because each file has its own `Constants`, `User` and
`validateInput`.

Modelling conventions, used throughout:

* `int` is `Int`. No counter of the program gets near `2^31` on the inputs the
  theorems range over.
* `double` is `ℚ`: the values are the finite doubles read as rationals.
  Infinities and NaN are not modelled. A division is only meaningful in the model
  where the divisor is non-zero, and each theorem that goes through a division
  carries the hypothesis that makes it so.
* In the simulation runs and in the closed-form queries `+`, `*`, `/` are the
  exact operations, so the equalities and inequalities proved about them are
  between the exact values.
* In `getAverageLatency` the sum of `std::accumulate` and the division by
  `size()` are the binary64 operations: each result is rounded to the nearest
  double, ties to even (`roundDouble`). Whether the average stays below the
  maximum depends on that rounding, so it is modelled there.
* `rand()` is a stream `rand : Nat → Nat` together with a read position: the
  `n`-th call of `rand()` in the process returns `rand n`.
* A `std::thread` body runs to completion at the point where the thread is
  created, so the attempts of a round happen one after another in the order in
  which the source starts them.
* `while` loops take a fuel argument; running out of fuel is a separate result
  (`Fault.outOfFuel`), never a normal return.
-/

namespace WiFiSim

/-- The C++ `std::max(a, b)` on doubles: `(a < b) ? b : a`. -/
def stdMax (a b : ℚ) : ℚ := if a < b then b else a

/-- The C++ `std::min(a, b)` on doubles: `(b < a) ? b : a`. -/
def stdMin (a b : ℚ) : ℚ := if b < a then b else a

/-- Ways in which running a function of the program does not return normally. -/
inductive Fault where
  /-- A C++ exception left the function; the string is `what()`. -/
  | thrown (what : String)
  /-- Undefined behaviour (out-of-bounds `operator[]`, integer `%` by zero). -/
  | undefinedBehaviour
  /-- The loop fuel of the model ran out before the loop condition became false. -/
  | outOfFuel
  deriving DecidableEq, Repr

/-- The process-wide state the simulators touch: how many `rand()` calls have
been made, and the lines written to `std::cerr`. -/
structure Env where
  randPos : Nat
  cerr : List String
  deriving DecidableEq, Repr

/-- Source `template <typename T> T validateInput(T value, T min, T max, msg)`: throws
`std::out_of_range(msg)` when `value < min || value > max`, else returns `value`.
The same template is defined in all three files. -/
def validateInput {T : Type} [LT T] [DecidableRel (fun a b : T => a < b)]
    (value min max : T) (errorMessage : String) : Except Fault T :=
  if value < min ∨ value > max then
    Except.error (Fault.thrown errorMessage)
  else
    Except.ok value

/-- Rounding of a rational to the nearest integer, ties to the even one. -/
def roundTiesEven (m : ℚ) : Int :=
  let f := ⌊m⌋
  let frac := m - (f : ℚ)
  if frac < 1 / 2 then f
  else if 1 / 2 < frac then f + 1
  else if f % 2 = 0 then f else f + 1

/-- The double that a binary64 operation returns for the exact result `q`:
round to nearest, ties to even, with a significand of 53 bits. For `q ≠ 0` with
`2^e ≤ |q| < 2^(e+1)` the doubles around `q` are the multiples of `2^(e-52)`.
The exponent range is not bounded here, so overflow to infinity and the
subnormal range (magnitudes below `2^-1022`) are not modelled. -/
def roundDouble (q : ℚ) : ℚ :=
  if q = 0 then 0
  else
    let e := Int.log 2 |q|
    let ulp : ℚ := 2 ^ (e - 52)
    (roundTiesEven (q / ulp) : ℚ) * ulp

/-- Source `std::accumulate(first, last, 0.0)` on doubles: left fold of the double
addition from `0.0`, every partial sum rounded. -/
def accumulate (xs : List ℚ) : ℚ := xs.foldl (fun acc x => roundDouble (acc + x)) 0

/-- Source `*std::max_element(first, last)` on a non-empty range: the running largest
element is replaced when `*largest < *it`. On the empty range the iterator is
`last` and dereferencing it is undefined, which is `none` here. -/
def maxElement : List ℚ → Option ℚ
  | [] => none
  | x :: xs => some (xs.foldl (fun largest y => if largest < y then y else largest) x)

deriving instance DecidableEq for Except

/-- One call of `rand()`: the value at the current position of the stream, and
the environment with the position advanced. -/
def callRand (rand : Nat → Nat) (env : Env) : Nat × Env :=
  (rand env.randPos, { env with randPos := env.randPos + 1 })

/-! ## wifi6.cpp -/

namespace wifi6

namespace Constants
def CSI_PACKET_SIZE : ℚ := 200.0
def OFDMA_PARALLEL_TIME_MS : ℚ := 5.0
def BITS_PER_SYMBOL : ℚ := 2.0
def CODING_RATE : ℚ := 0.75
end Constants

/-- Source `class User` of wifi6.cpp: only an id. -/
structure User where
  id : Int
  deriving DecidableEq, Repr

/-- The data members of `class WiFi6`. -/
structure WiFi6 where
  numUsers : Int
  numSubchannels : Int
  bandwidthMHz : ℚ
  packetSize : Int
  users : List User
  deriving DecidableEq, Repr

/-- The constructor `WiFi6(numUsers, numSubchannels, bandwidthMHz, packetSize)`:
stores its arguments and emplaces users `0 .. numUsers-1`. -/
def WiFi6.new (numUsers numSubchannels : Int) (bandwidthMHz : ℚ) (packetSize : Int) : WiFi6 :=
  { numUsers := numUsers
    numSubchannels := numSubchannels
    bandwidthMHz := bandwidthMHz
    packetSize := packetSize
    users := (List.range numUsers.toNat).map (fun i => User.mk (i : Int)) }

def WiFi6.getNumUsers (w : WiFi6) : Int := w.numUsers

def WiFi6.getBandwidthMHz (w : WiFi6) : ℚ := w.bandwidthMHz

/-- The local `totalTime` that `WiFi6::simulate` computes and then drops. Its
parameter `numUsers` shadows the data member. -/
def WiFi6.simulateTotalTime (w : WiFi6) (numUsers : Int) : ℚ :=
  let totalTime : ℚ := 0.0
  let totalTime := totalTime + (Constants.CSI_PACKET_SIZE * 8.0 * (numUsers : ℚ)) / (w.bandwidthMHz * 1e6)
  let rounds : Int := ⌈(numUsers : ℚ) / (w.numSubchannels : ℚ)⌉
  totalTime + (rounds : ℚ) * Constants.OFDMA_PARALLEL_TIME_MS * 1e-3

/-- Source `void WiFi6::simulate(int numUsers, double duration)`: there is no call of
`validateInput`, nothing is thrown, and no data member is written; the function
returns normally with the object as it was. -/
def WiFi6.simulate (w : WiFi6) (numUsers : Int) (duration : ℚ) : Except Fault WiFi6 :=
  let _totalTime := w.simulateTotalTime numUsers
  let _duration := duration
  Except.ok w

/-- Source `double WiFi6::calculateThroughput() const`. -/
def WiFi6.calculateThroughput (w : WiFi6) : ℚ :=
  let subchannelBandwidth := w.bandwidthMHz / (w.numSubchannels : ℚ)
  let baseThroughput := subchannelBandwidth * Constants.BITS_PER_SYMBOL * Constants.CODING_RATE
  let usersPerSubchannel := (w.numUsers : ℚ) / (w.numSubchannels : ℚ)
  let userPenalty := 1.0 + 0.1 * usersPerSubchannel
  let adjustedThroughput := baseThroughput / userPenalty
  let maxThroughput := w.bandwidthMHz * Constants.BITS_PER_SYMBOL * Constants.CODING_RATE
  let finalThroughput := stdMin (adjustedThroughput * (w.numSubchannels : ℚ)) maxThroughput
  stdMax finalThroughput 1.0001

/-- Source `double WiFi6::getAverageLatency() const`. -/
def WiFi6.getAverageLatency (w : WiFi6) : ℚ :=
  let baseLatency := Constants.OFDMA_PARALLEL_TIME_MS
  let usersPerSubchannel := (w.numUsers : ℚ) / (w.numSubchannels : ℚ)
  let contentionFactor := usersPerSubchannel * 1.2
  let averageLatency := baseLatency + (contentionFactor * 17.5)
  averageLatency

/-- Source `double WiFi6::getMaxLatency() const`. -/
def WiFi6.getMaxLatency (w : WiFi6) : ℚ :=
  let baseLatency := Constants.OFDMA_PARALLEL_TIME_MS
  let usersPerSubchannel := (w.numUsers : ℚ) / (w.numSubchannels : ℚ)
  let maxLatencyFactor := usersPerSubchannel * 2.0
  let maxLatency := baseLatency + (maxLatencyFactor * 23.72)
  maxLatency

end wifi6

/-! ## wifi4.cpp -/

namespace wifi4

namespace Constants
def PACKET_SIZE_BYTES : Int := 1500
def DIFS_US : Int := 34
def SLOT_TIME_US : Int := 9
def BANDWIDTH_MHZ : Int := 20
end Constants

/-- Source `class AccessPoint : NetworkElement`, as built by `AccessPoint(int id)`. -/
structure AccessPoint where
  id : Int
  backoffTime : ℚ
  mainChannel : Int
  deriving DecidableEq, Repr

def AccessPoint.new (id : Int) : AccessPoint :=
  { id := id, backoffTime := 0, mainChannel := 1 }

/-- Source `class User : NetworkElement`. -/
structure User where
  id : Int
  backoffTime : ℚ
  deriving DecidableEq, Repr

/-- Source `bool User::transmit(int channel)`: `rand() % 2 == 0`. -/
def User.transmit (rand : Nat → Nat) (_user : User) (env : Env) (_channel : Int) : Bool × Env :=
  let (r, env) := callRand rand env
  (r % 2 == 0, env)

/-- Source `void User::updateBackoffCounter()`: `backoffTime += SLOT_TIME_US * 1e-6`. -/
def User.updateBackoffCounter (user : User) : User :=
  { user with backoffTime := user.backoffTime + (Constants.SLOT_TIME_US : ℚ) * 1e-6 }

/-- The data members of `class WiFi4` (the mutex apart). -/
structure WiFi4 where
  users : List User
  ap : AccessPoint
  latencies : List ℚ
  totalThroughput : ℚ
  collisionCount : Int
  backoffTimes : List ℚ
  deriving DecidableEq, Repr

/-- The constructor `WiFi4() : ap(1) {}` with the default member initialisers. -/
def WiFi4.new : WiFi4 :=
  { users := []
    ap := AccessPoint.new 1
    latencies := []
    totalThroughput := 0.0
    collisionCount := 0
    backoffTimes := [] }

/-- Source `double WiFi4::calculateTransmissionTime(int packetSize) const`. -/
def WiFi4.calculateTransmissionTime (packetSize : Int) : ℚ :=
  (packetSize : ℚ) * 8.0 / ((Constants.BANDWIDTH_MHZ : ℚ) * 1e6)

/-- Source `void WiFi4::handleCollision(User& user)`: the user backs off and the
collision counter goes up by one. -/
def WiFi4.handleCollision (w : WiFi4) (user : User) : User × WiFi4 :=
  (user.updateBackoffCounter, { w with collisionCount := w.collisionCount + 1 })

/-- Source `void WiFi4::updateThroughput(int numUsers)`: overwrites `totalThroughput`. -/
def WiFi4.updateThroughput (w : WiFi4) (numUsers : Int) : WiFi4 :=
  let penaltyFactor := 1.0 - (0.01 * (numUsers : ℚ))
  let penaltyFactor := stdMax 0.67 penaltyFactor
  let adjustedThroughput := 15.0 * penaltyFactor
  { w with totalThroughput := adjustedThroughput * 1e6 }

/-- What the thread lambda of `WiFi4::simulate` reaches through `this` and through
its by-reference captures, the `user` apart. -/
structure Shared where
  sim : WiFi4
  env : Env
  currentTime : ℚ
  deriving DecidableEq, Repr

/-- The body of the thread lambda in `WiFi4::simulate`, for one user. Besides the
updated user and shared state it reports `success`, the result of `transmit`, which
the program itself does not keep. -/
def threadBody (rand : Nat → Nat) (numUsers : Int) (user : User) (s : Shared) :
    Bool × User × Shared :=
  let (success, env) := user.transmit rand s.env s.sim.ap.mainChannel
  let txTime := WiFi4.calculateTransmissionTime Constants.PACKET_SIZE_BYTES
  if success then
    let (r, env) := callRand rand env
    let latency := txTime * 1000 * (1.0 + 0.002 * (numUsers : ℚ)) + (0.1 * ((r % 20 : Nat) : ℚ))
    let latency := stdMax 0.8 latency
    let sim := { s.sim with
      latencies := s.sim.latencies ++ [latency]
      totalThroughput := s.sim.totalThroughput + (Constants.PACKET_SIZE_BYTES : ℚ) * 8.0 }
    (true, user, { sim := sim, env := env, currentTime := s.currentTime + 0.00001 })
  else
    let (user, sim) := s.sim.handleCollision user
    (false, user, { sim := sim, env := env, currentTime := s.currentTime + 0.00001 })

/-- The loop `for (auto& user : users) threads.push_back(std::thread(...))` followed
by the joins: one thread body per user, in list order. Returns the `success` flag
of each attempt, the users after the round, and the shared state. -/
def forEachUser (rand : Nat → Nat) (numUsers : Int) :
    List User → Shared → List Bool × List User × Shared
  | [], s => ([], [], s)
  | user :: rest, s =>
    let (success, user, s) := threadBody rand numUsers user s
    let (successes, rest, s) := forEachUser rand numUsers rest s
    (success :: successes, user :: rest, s)

/-- The state carried by the `while` loop of `WiFi4::simulate`: the shared program
state, and a log with one entry per round executed so far, each entry listing the
`success` flags of the attempts of that round. The log is bookkeeping of the model,
the program has no such variable. -/
structure Run where
  shared : Shared
  rounds : List (List Bool)
  deriving DecidableEq, Repr

/-- The loop `while (currentTime < duration / 1000.0) { ... }` of `WiFi4::simulate`. -/
def whileLoop (rand : Nat → Nat) (numUsers : Int) (duration : ℚ) :
    Nat → Run → Except Fault Run
  | 0, r =>
    if r.shared.currentTime < duration / 1000.0 then Except.error Fault.outOfFuel
    else Except.ok r
  | fuel + 1, r =>
    if r.shared.currentTime < duration / 1000.0 then
      let (successes, users, s) := forEachUser rand numUsers r.shared.sim.users r.shared
      whileLoop rand numUsers duration fuel
        { shared := { s with sim := { s.sim with users := users } }
          rounds := r.rounds ++ [successes] }
    else Except.ok r

/-- The loop `for (int i = 0; i < numUsers; i++) users.push_back(User(i, 20.0 + rand() % 20))`,
with `n` iterations left and `i` the next id. -/
def createUsers (rand : Nat → Nat) : Nat → Int → List User → Env → List User × Env
  | 0, _, users, env => (users, env)
  | n + 1, i, users, env =>
    let (r, env) := callRand rand env
    createUsers rand n (i + 1) (users ++ [User.mk i (20.0 + ((r % 20 : Nat) : ℚ))]) env

/-- What a call of `simulate` leaves behind: the object, the environment, and the
log of the rounds it ran (empty when the call ran no round). -/
structure Finished where
  sim : WiFi4
  env : Env
  rounds : List (List Bool)
  deriving DecidableEq, Repr

/-- The `try` block of `WiFi4::simulate`: the two `validateInput` calls. -/
def validateParameters (numUsers : Int) (duration : ℚ) : Except Fault Unit :=
  match validateInput numUsers 1 1000 "Number of users must be between 1 and 1000" with
  | Except.error f => Except.error f
  | Except.ok _ =>
    match validateInput duration 1.0 10000.0
        "Simulation duration must be between 1 and 10000 milliseconds" with
    | Except.error f => Except.error f
    | Except.ok _ => Except.ok ()

/-- Source `void WiFi4::simulate(int numUsers, double duration)`. An exception of the
`try` block is caught inside: a line goes to `std::cerr` and the function returns
normally (`Except.ok`), so nothing is thrown to the caller. -/
def WiFi4.simulate (rand : Nat → Nat) (fuel : Nat) (w : WiFi4) (env : Env)
    (numUsers : Int) (duration : ℚ) : Except Fault Finished :=
  match validateParameters numUsers duration with
  | Except.error (Fault.thrown what) =>
    Except.ok
      { sim := w
        env := { env with cerr := env.cerr ++ ["Input validation error: " ++ what ++ "\n"] }
        rounds := [] }
  | Except.error f => Except.error f
  | Except.ok _ =>
    let w := { w with users := [], collisionCount := 0, backoffTimes := [] }
    let (users, env) := createUsers rand numUsers.toNat 0 w.users env
    let w := { w with users := users }
    let currentTime : ℚ := 0
    match whileLoop rand numUsers duration fuel
        { shared := { sim := w, env := env, currentTime := currentTime }, rounds := [] } with
    | Except.error f => Except.error f
    | Except.ok r =>
      Except.ok
        { sim := r.shared.sim.updateThroughput numUsers
          env := r.shared.env
          rounds := r.rounds }

/-- Source `double WiFi4::calculateThroughput() const`. -/
def WiFi4.calculateThroughput (w : WiFi4) : ℚ := w.totalThroughput / 1e6

/-- Source `double WiFi4::getAverageLatency() const`: the rounded sum divided, in
double arithmetic, by `size()` converted to double (exact below `2^53`). -/
def WiFi4.getAverageLatency (w : WiFi4) : ℚ :=
  if w.latencies.isEmpty then 0.0
  else roundDouble (accumulate w.latencies / (w.latencies.length : ℚ))

/-- Source `double WiFi4::getMaxLatency() const`. The `none` branch of the inner match is
the dereference of `end()`, which the emptiness test excludes. -/
def WiFi4.getMaxLatency (w : WiFi4) : ℚ :=
  if w.latencies.isEmpty then 0.0
  else
    match maxElement w.latencies with
    | some largest => largest
    | none => 0.0

/-- Source `int WiFi4::getCollisionCount() const`. -/
def WiFi4.getCollisionCount (w : WiFi4) : Int := w.collisionCount

/-- Total number of attempts in a log of rounds. -/
def attemptsIn (rounds : List (List Bool)) : Nat := (rounds.map List.length).sum

/-- Number of successful attempts in a log of rounds. -/
def successesIn (rounds : List (List Bool)) : Nat := (rounds.map (List.count true)).sum

/-- Number of failed attempts in a log of rounds. -/
def collisionsIn (rounds : List (List Bool)) : Nat := (rounds.map (List.count false)).sum

end wifi4

/-! ## wifi5.cpp -/

namespace wifi5

namespace Constants
def PACKET_SIZE_BYTES : ℚ := 1500
def BANDWIDTH_MHZ : ℚ := 80.0
def DIFS_US : ℚ := 34.0
end Constants

/-- Source `class User` of wifi5.cpp; `MIMOUser` adds nothing to it. -/
structure User where
  id : Int
  signalStrength : ℚ
  deriving DecidableEq, Repr

/-- Source `virtual bool User::transmit(int channel)`: `rand() % 10 < 8`. -/
def User.transmit (rand : Nat → Nat) (_user : User) (env : Env) (_channel : Int) : Bool × Env :=
  let (r, env) := callRand rand env
  (decide (r % 10 < 8), env)

/-- The data members of `class WiFi5`. -/
structure WiFi5 where
  totalThroughput : ℚ
  latencies : List ℚ
  deriving DecidableEq, Repr

/-- The constructor `WiFi5() : totalThroughput(0.0) {}`. -/
def WiFi5.new : WiFi5 := { totalThroughput := 0.0, latencies := [] }

/-- What the slot lambda of `WiFi5::simulate` reaches through `this` and through
its by-reference captures (`users` is only read and is passed separately). -/
structure Shared where
  sim : WiFi5
  env : Env
  currentTime : ℚ
  totalDataTransmitted : ℚ
  deriving DecidableEq, Repr

/-- The body of the thread lambda in `WiFi5::simulate`, for the slot of user
`roundRobinIndex`. `users[roundRobinIndex]` outside the vector is undefined
behaviour. The two `rand()` calls of the latency expression are taken left to
right. Besides the shared state it reports whether `transmit` succeeded. -/
def slotBody (rand : Nat → Nat) (users : List User) (roundRobinIndex : Int)
    (wifi5ThroughputMultiplier : ℚ) (numUsers : Int) (s : Shared) :
    Except Fault (Bool × Shared) :=
  if roundRobinIndex < 0 then Except.error Fault.undefinedBehaviour
  else
    match users.get? roundRobinIndex.toNat with
    | none => Except.error Fault.undefinedBehaviour
    | some user =>
      let (success, env) := user.transmit rand s.env 0
      if success then
        let txTime := Constants.PACKET_SIZE_BYTES * 8.0 / (Constants.BANDWIDTH_MHZ * 1e6)
        let txTime := txTime * ((1.0 + 0.01 * (numUsers : ℚ)) * (1.0 / wifi5ThroughputMultiplier))
        let (r1, env) := callRand rand env
        let (r2, env) := callRand rand env
        let latency := stdMax 5.0
          (txTime * 1000 + (0.1 * ((r1 % 30 : Nat) : ℚ)) + (2.0 + 0.5 * ((r2 % 10 : Nat) : ℚ)))
        Except.ok (true,
          { sim := { s.sim with latencies := s.sim.latencies ++ [latency] }
            env := env
            currentTime := s.currentTime + (txTime + Constants.DIFS_US * 1e-6)
            totalDataTransmitted := s.totalDataTransmitted + Constants.PACKET_SIZE_BYTES * 8.0 })
      else
        Except.ok (false, { s with env := env })

/-- The state carried by the `while` loop of `WiFi5::simulate`: the shared state,
the round-robin index, and a log of the `transmit` result of every slot so far
(bookkeeping of the model, the program has no such variable). -/
structure Run where
  shared : Shared
  roundRobinIndex : Int
  slots : List Bool
  deriving DecidableEq, Repr

/-- The loop `while (currentTime < duration) { ... }` of `WiFi5::simulate`. The
batching of the joins (`maxThreads = 10`) changes no value in the sequential
reading and is left out. `(roundRobinIndex + 1) % numUsers` with `numUsers == 0`
is undefined behaviour; `%` of C++ truncates, which is `Int.tmod`. -/
def whileLoop (rand : Nat → Nat) (users : List User) (wifi5ThroughputMultiplier : ℚ)
    (numUsers : Int) (duration : ℚ) : Nat → Run → Except Fault Run
  | 0, r =>
    if r.shared.currentTime < duration then Except.error Fault.outOfFuel
    else Except.ok r
  | fuel + 1, r =>
    if r.shared.currentTime < duration then
      match slotBody rand users r.roundRobinIndex wifi5ThroughputMultiplier numUsers r.shared with
      | Except.error f => Except.error f
      | Except.ok (success, s) =>
        if numUsers = 0 then Except.error Fault.undefinedBehaviour
        else
          whileLoop rand users wifi5ThroughputMultiplier numUsers duration fuel
            { shared := s
              roundRobinIndex := Int.tmod (r.roundRobinIndex + 1) numUsers
              slots := r.slots ++ [success] }
    else Except.ok r

/-- The loop `for (int i = 0; i < numUsers; ++i) users.push_back(MIMOUser(i, 20.0 + rand() % 20))`,
with `n` iterations left and `i` the next id. -/
def createUsers (rand : Nat → Nat) : Nat → Int → List User → Env → List User × Env
  | 0, _, users, env => (users, env)
  | n + 1, i, users, env =>
    let (r, env) := callRand rand env
    createUsers rand n (i + 1) (users ++ [User.mk i (20.0 + ((r % 20 : Nat) : ℚ))]) env

/-- What a call of `simulate` leaves behind: the object, the environment, and the
log of the slots it ran. -/
structure Finished where
  sim : WiFi5
  env : Env
  slots : List Bool
  deriving DecidableEq, Repr

/-- Source `void WiFi5::simulate(int numUsers, double duration)`. There is no call of
`validateInput` in it. The final division by `duration` is exact division in the
model, so the model says nothing about `duration == 0`. -/
def WiFi5.simulate (rand : Nat → Nat) (fuel : Nat) (w : WiFi5) (env : Env)
    (numUsers : Int) (duration : ℚ) : Except Fault Finished :=
  let (users, env) := createUsers rand numUsers.toNat 0 [] env
  let currentTime : ℚ := 0
  let totalDataTransmitted : ℚ := 0
  let wifi5ThroughputMultiplier : ℚ := 1.5
  let roundRobinIndex : Int := 0
  match whileLoop rand users wifi5ThroughputMultiplier numUsers duration fuel
      { shared :=
          { sim := w, env := env, currentTime := currentTime
            totalDataTransmitted := totalDataTransmitted }
        roundRobinIndex := roundRobinIndex
        slots := [] } with
  | Except.error f => Except.error f
  | Except.ok r =>
    let throughputPenalty := stdMax 0.5 (1.0 - (0.01 * (numUsers : ℚ)))
    Except.ok
      { sim := { r.shared.sim with
          totalThroughput :=
            r.shared.totalDataTransmitted * wifi5ThroughputMultiplier * throughputPenalty / duration }
        env := r.shared.env
        slots := r.slots }

/-- Source `double WiFi5::calculateThroughput() const`. -/
def WiFi5.calculateThroughput (w : WiFi5) : ℚ := w.totalThroughput / 1e6

/-- Source `double WiFi5::getAverageLatency() const`: the rounded sum divided, in
double arithmetic, by `size()` converted to double (exact below `2^53`). -/
def WiFi5.getAverageLatency (w : WiFi5) : ℚ :=
  if w.latencies.isEmpty then 0.0
  else roundDouble (accumulate w.latencies / (w.latencies.length : ℚ))

/-- Source `double WiFi5::getMaxLatency() const`. The `none` branch of the inner match is
the dereference of `end()`, which the emptiness test excludes. -/
def WiFi5.getMaxLatency (w : WiFi5) : ℚ :=
  if w.latencies.isEmpty then 0.0
  else
    match maxElement w.latencies with
    | some largest => largest
    | none => 0.0

end wifi5

/-! ## Shared lemmas -/

theorem stdMax_eq_max (a b : ℚ) : stdMax a b = max a b := by
  unfold stdMax
  split_ifs with h
  · exact (max_eq_right h.le).symm
  · exact (max_eq_left (not_lt.mp h)).symm

theorem stdMin_eq_min (a b : ℚ) : stdMin a b = min a b := by
  unfold stdMin
  split_ifs with h
  · exact (min_eq_right h.le).symm
  · exact (min_eq_left (not_lt.mp h)).symm

theorem callRand_cerr (rand : Nat → Nat) (env : Env) : (callRand rand env).2.cerr = env.cerr := rfl

theorem foldl_largest_ge (xs : List ℚ) (x : ℚ) :
    x ≤ xs.foldl (fun largest y => if largest < y then y else largest) x ∧
    ∀ y ∈ xs, y ≤ xs.foldl (fun largest y => if largest < y then y else largest) x := by
  induction xs generalizing x with
  | nil => simp
  | cons a as ih =>
    simp only [List.foldl_cons, List.mem_cons]
    obtain ⟨h1, h2⟩ := ih (if x < a then a else x)
    have hx : x ≤ (if x < a then a else x) := by
      split_ifs with h
      · exact h.le
      · exact le_rfl
    have ha : a ≤ (if x < a then a else x) := by
      split_ifs with h
      · exact le_rfl
      · exact not_lt.mp h
    refine ⟨hx.trans h1, ?_⟩
    rintro y (rfl | hy)
    · exact ha.trans h1
    · exact h2 y hy

theorem foldl_largest_mem (xs : List ℚ) (x : ℚ) :
    xs.foldl (fun largest y => if largest < y then y else largest) x = x ∨
    xs.foldl (fun largest y => if largest < y then y else largest) x ∈ xs := by
  induction xs generalizing x with
  | nil => simp
  | cons a as ih =>
    simp only [List.foldl_cons, List.mem_cons]
    rcases ih (if x < a then a else x) with h | h
    · rw [h]
      split_ifs
      · exact Or.inr (Or.inl rfl)
      · exact Or.inl rfl
    · exact Or.inr (Or.inr h)

theorem sum_le_length_mul (xs : List ℚ) (m : ℚ) (h : ∀ y ∈ xs, y ≤ m) :
    xs.sum ≤ (xs.length : ℚ) * m := by
  induction xs with
  | nil => simp
  | cons b bs ih =>
    have hb : b ≤ m := h b (List.mem_cons_self _ _)
    have hbs := ih (fun y hy => h y (List.mem_cons_of_mem _ hy))
    simp only [List.sum_cons, List.length_cons]
    push_cast
    linarith

/-- For a non-empty list `maxElement` is an element of the list that bounds every
element, and the exact mean of the list is at most it. -/
theorem maxElement_spec (xs : List ℚ) (hne : xs ≠ []) :
    ∃ m, maxElement xs = some m ∧ m ∈ xs ∧ (∀ y ∈ xs, y ≤ m) ∧
      xs.sum / (xs.length : ℚ) ≤ m := by
  cases xs with
  | nil => exact absurd rfl hne
  | cons x rest =>
    obtain ⟨h1, h2⟩ := foldl_largest_ge rest x
    have hall : ∀ y ∈ x :: rest,
        y ≤ rest.foldl (fun largest y => if largest < y then y else largest) x := by
      intro y hy
      rcases List.mem_cons.mp hy with rfl | hy
      · exact h1
      · exact h2 y hy
    refine ⟨_, rfl, ?_, hall, ?_⟩
    · rcases foldl_largest_mem rest x with h | h
      · rw [h]; exact List.mem_cons_self _ _
      · exact List.mem_cons_of_mem _ h
    · have hpos : (0 : ℚ) < ((x :: rest).length : ℚ) := by
        simp only [List.length_cons]; positivity
      rw [div_le_iff₀ hpos, mul_comm]
      exact sum_le_length_mul _ _ hall

/-! ## Rounding to binary64: error bounds -/

theorem roundTiesEven_le (m : ℚ) : (roundTiesEven m : ℚ) ≤ m + 1 / 2 := by
  have h1 : ((⌊m⌋ : Int) : ℚ) ≤ m := Int.floor_le m
  unfold roundTiesEven
  simp only
  split_ifs with ha hb hc
  · linarith
  · push_cast; linarith
  · linarith
  · have hfrac : m - ((⌊m⌋ : Int) : ℚ) = 1 / 2 := le_antisymm (not_lt.mp hb) (not_lt.mp ha)
    push_cast; linarith

theorem roundTiesEven_ge (m : ℚ) : m - 1 / 2 ≤ (roundTiesEven m : ℚ) := by
  have h2 : m < ((⌊m⌋ : Int) : ℚ) + 1 := Int.lt_floor_add_one m
  unfold roundTiesEven
  simp only
  split_ifs with ha hb hc
  · linarith
  · push_cast; linarith
  · have hfrac : m - ((⌊m⌋ : Int) : ℚ) = 1 / 2 := le_antisymm (not_lt.mp hb) (not_lt.mp ha)
    linarith
  · push_cast; linarith

theorem roundDouble_bounds (q : ℚ) (hq : 0 < q) :
    q * (1 - 1 / 2 ^ 53) ≤ roundDouble q ∧ roundDouble q ≤ q * (1 + 1 / 2 ^ 53) := by
  have hne : q ≠ 0 := hq.ne'
  have habs : |q| = q := abs_of_pos hq
  have hlog : (2 : ℚ) ^ Int.log 2 q ≤ q := by
    have := Int.zpow_log_le_self (b := 2) (by norm_num) hq
    simpa using this
  have hulp : (0 : ℚ) < 2 ^ (Int.log 2 q - 52) := zpow_pos (by norm_num) _
  have hsplit : (2 : ℚ) ^ (Int.log 2 q - 52) = 2 ^ Int.log 2 q / 2 ^ 52 := by
    rw [zpow_sub₀ (by norm_num : (2 : ℚ) ≠ 0)]
    norm_num
  have hhalf : (2 : ℚ) ^ (Int.log 2 q - 52) / 2 ≤ q / 2 ^ 53 := by
    rw [hsplit]
    have : (2 : ℚ) ^ Int.log 2 q / 2 ^ 52 / 2 = 2 ^ Int.log 2 q / 2 ^ 53 := by ring
    rw [this]
    exact div_le_div_of_nonneg_right hlog (by positivity)
  have hcancel : q / 2 ^ (Int.log 2 q - 52) * 2 ^ (Int.log 2 q - 52) = q :=
    div_mul_cancel₀ q hulp.ne'
  have hup := roundTiesEven_le (q / 2 ^ (Int.log 2 q - 52))
  have hlo := roundTiesEven_ge (q / 2 ^ (Int.log 2 q - 52))
  have hup' := mul_le_mul_of_nonneg_right hup hulp.le
  have hlo' := mul_le_mul_of_nonneg_right hlo hulp.le
  simp only [roundDouble, hne, if_false, habs]
  constructor
  · calc q * (1 - 1 / 2 ^ 53) = q - q / 2 ^ 53 := by ring
      _ ≤ q - 2 ^ (Int.log 2 q - 52) / 2 := by linarith
      _ = (q / 2 ^ (Int.log 2 q - 52) - 1 / 2) * 2 ^ (Int.log 2 q - 52) := by
          rw [sub_mul, hcancel]; ring
      _ ≤ _ := hlo'
  · calc _ ≤ (q / 2 ^ (Int.log 2 q - 52) + 1 / 2) * 2 ^ (Int.log 2 q - 52) := hup'
      _ = q + 2 ^ (Int.log 2 q - 52) / 2 := by rw [add_mul, hcancel]; ring
      _ ≤ q + q / 2 ^ 53 := by linarith
      _ = q * (1 + 1 / 2 ^ 53) := by ring

theorem roundDouble_nonneg (q : ℚ) (hq : 0 ≤ q) : 0 ≤ roundDouble q := by
  rcases hq.eq_or_lt with h | h
  · rw [← h]; simp [roundDouble]
  · have h1 := (roundDouble_bounds q h).1
    have : (0 : ℚ) ≤ q * (1 - 1 / 2 ^ 53) := mul_nonneg h.le (by norm_num)
    linarith

theorem roundDouble_le (q : ℚ) (hq : 0 ≤ q) : roundDouble q ≤ q * (1 + 1 / 2 ^ 53) := by
  rcases hq.eq_or_lt with h | h
  · rw [← h]; simp [roundDouble]
  · exact (roundDouble_bounds q h).2

theorem foldl_round_bound (m : ℚ) (hm : 0 ≤ m) (xs : List ℚ)
    (hx : ∀ x ∈ xs, 0 ≤ x ∧ x ≤ m) :
    ∀ (j : Nat) (acc : ℚ), 0 ≤ acc → acc ≤ (j : ℚ) * m * (1 + 1 / 2 ^ 53) ^ j →
      0 ≤ xs.foldl (fun acc x => roundDouble (acc + x)) acc ∧
      xs.foldl (fun acc x => roundDouble (acc + x)) acc
        ≤ ((j + xs.length : Nat) : ℚ) * m * (1 + 1 / 2 ^ 53) ^ (j + xs.length) := by
  induction xs with
  | nil => intro j acc h0 h1; exact ⟨h0, by simpa using h1⟩
  | cons x rest ih =>
    intro j acc h0 h1
    obtain ⟨hx0, hxm⟩ := hx x (List.mem_cons_self _ _)
    have hrest := ih (fun y hy => hx y (List.mem_cons_of_mem _ hy))
    have hpow : (1 : ℚ) ≤ (1 + 1 / 2 ^ 53) ^ j := one_le_pow₀ (by norm_num)
    have hstep0 : 0 ≤ roundDouble (acc + x) := roundDouble_nonneg _ (by linarith)
    have hstep : roundDouble (acc + x) ≤ ((j + 1 : Nat) : ℚ) * m * (1 + 1 / 2 ^ 53) ^ (j + 1) := by
      have h2 := roundDouble_le (acc + x) (by linarith)
      have h3 : acc + x ≤ ((j + 1 : Nat) : ℚ) * m * (1 + 1 / 2 ^ 53) ^ j := by
        have : m ≤ m * (1 + 1 / 2 ^ 53) ^ j := le_mul_of_one_le_right hm hpow
        push_cast
        nlinarith
      calc roundDouble (acc + x) ≤ (acc + x) * (1 + 1 / 2 ^ 53) := h2
        _ ≤ ((j + 1 : Nat) : ℚ) * m * (1 + 1 / 2 ^ 53) ^ j * (1 + 1 / 2 ^ 53) :=
            mul_le_mul_of_nonneg_right h3 (by norm_num)
        _ = ((j + 1 : Nat) : ℚ) * m * (1 + 1 / 2 ^ 53) ^ (j + 1) := by rw [pow_succ]; ring
    have := hrest (j + 1) (roundDouble (acc + x)) hstep0 hstep
    simp only [List.foldl_cons, List.length_cons]
    have hidx : j + 1 + rest.length = j + (rest.length + 1) := by omega
    rw [hidx] at this
    exact this

/-- The average in double arithmetic of `n` non-negative values, none above `m`, is
at most `m * (1 + 2^-53)^(n+1)`: one rounding per addition and one for the
division. -/
theorem roundedMean_le (xs : List ℚ) (m : ℚ) (hne : xs ≠ [])
    (hx : ∀ x ∈ xs, 0 ≤ x ∧ x ≤ m) :
    roundDouble (accumulate xs / (xs.length : ℚ))
      ≤ m * (1 + 1 / 2 ^ 53) ^ (xs.length + 1) := by
  have hlen : 0 < xs.length := List.length_pos.mpr hne
  have hlenq : (0 : ℚ) < (xs.length : ℚ) := by exact_mod_cast hlen
  have hm : 0 ≤ m := by
    obtain ⟨a, ha⟩ := List.exists_mem_of_ne_nil xs hne
    exact (hx a ha).1.trans (hx a ha).2
  obtain ⟨h0, h1⟩ := foldl_round_bound m hm xs hx 0 0 le_rfl (by simp)
  simp only [zero_add] at h1
  have hs0 : 0 ≤ accumulate xs / (xs.length : ℚ) := div_nonneg h0 hlenq.le
  have hs1 : accumulate xs / (xs.length : ℚ) ≤ m * (1 + 1 / 2 ^ 53) ^ xs.length := by
    rw [div_le_iff₀ hlenq]
    calc accumulate xs ≤ (xs.length : ℚ) * m * (1 + 1 / 2 ^ 53) ^ xs.length := h1
      _ = m * (1 + 1 / 2 ^ 53) ^ xs.length * (xs.length : ℚ) := by ring
  calc roundDouble (accumulate xs / (xs.length : ℚ))
      ≤ accumulate xs / (xs.length : ℚ) * (1 + 1 / 2 ^ 53) := roundDouble_le _ hs0
    _ ≤ m * (1 + 1 / 2 ^ 53) ^ xs.length * (1 + 1 / 2 ^ 53) :=
        mul_le_mul_of_nonneg_right hs1 (by norm_num)
    _ = m * (1 + 1 / 2 ^ 53) ^ (xs.length + 1) := by ring

/-! ## Gen-A (wifi4.cpp): lemmas on the run loop -/

namespace wifi4

theorem threadBody_spec (rand : Nat → Nat) (numUsers : Int) (user : User) (s : Shared) :
    (threadBody rand numUsers user s).2.2.currentTime = s.currentTime + 0.00001 ∧
    (threadBody rand numUsers user s).2.2.env.cerr = s.env.cerr ∧
    (threadBody rand numUsers user s).2.2.sim.users = s.sim.users ∧
    (∃ new, (threadBody rand numUsers user s).2.2.sim.latencies = s.sim.latencies ++ new ∧
      new.length = [(threadBody rand numUsers user s).1].count true) ∧
    (threadBody rand numUsers user s).2.2.sim.collisionCount
      = s.sim.collisionCount + ([(threadBody rand numUsers user s).1].count false : Nat) := by
  unfold threadBody
  simp only [User.transmit, callRand, WiFi4.handleCollision]
  cases hb : (rand s.env.randPos % 2 == 0) <;> simp

theorem forEachUser_cons (rand : Nat → Nat) (numUsers : Int) (user : User) (rest : List User)
    (s : Shared) :
    forEachUser rand numUsers (user :: rest) s =
      ((threadBody rand numUsers user s).1 ::
          (forEachUser rand numUsers rest (threadBody rand numUsers user s).2.2).1,
        (threadBody rand numUsers user s).2.1 ::
          (forEachUser rand numUsers rest (threadBody rand numUsers user s).2.2).2.1,
        (forEachUser rand numUsers rest (threadBody rand numUsers user s).2.2).2.2) := rfl

theorem forEachUser_spec (rand : Nat → Nat) (numUsers : Int) (users : List User) (s : Shared) :
    (forEachUser rand numUsers users s).1.length = users.length ∧
    (forEachUser rand numUsers users s).2.1.length = users.length ∧
    (forEachUser rand numUsers users s).2.2.currentTime
      = s.currentTime + (users.length : ℚ) * 0.00001 ∧
    (forEachUser rand numUsers users s).2.2.env.cerr = s.env.cerr ∧
    (∃ new, (forEachUser rand numUsers users s).2.2.sim.latencies = s.sim.latencies ++ new ∧
      new.length = (forEachUser rand numUsers users s).1.count true) ∧
    (forEachUser rand numUsers users s).2.2.sim.collisionCount
      = s.sim.collisionCount + ((forEachUser rand numUsers users s).1.count false : Nat) := by
  induction users generalizing s with
  | nil => exact ⟨rfl, rfl, by simp [forEachUser], rfl, ⟨[], by simp [forEachUser]⟩, by simp [forEachUser]⟩
  | cons user rest ih =>
    obtain ⟨t1, t2, _, ⟨new1, t4, t5⟩, t6⟩ := threadBody_spec rand numUsers user s
    obtain ⟨i1, i2, i3, i4, ⟨new2, i5, i6⟩, i7⟩ := ih (threadBody rand numUsers user s).2.2
    rw [forEachUser_cons]
    refine ⟨by simp [i1], by simp [i2], ?_, ?_, ⟨new1 ++ new2, ?_, ?_⟩, ?_⟩
    · simp only [i3, t1, List.length_cons]; push_cast; ring
    · simp only [i4, t2]
    · simp only [i5, t4, List.append_assoc]
    · simp only [List.length_append, t5, i6, List.count_cons, List.count_nil]
      omega
    · simp only [i7, t6, List.count_cons, List.count_nil]
      push_cast
      ring

theorem whileLoop_zero (rand : Nat → Nat) (numUsers : Int) (duration : ℚ) (r : Run) :
    whileLoop rand numUsers duration 0 r =
      if r.shared.currentTime < duration / 1000.0 then Except.error Fault.outOfFuel
      else Except.ok r := rfl

theorem whileLoop_succ (rand : Nat → Nat) (numUsers : Int) (duration : ℚ) (fuel : Nat) (r : Run) :
    whileLoop rand numUsers duration (fuel + 1) r =
      if r.shared.currentTime < duration / 1000.0 then
        whileLoop rand numUsers duration fuel
          { shared :=
              { (forEachUser rand numUsers r.shared.sim.users r.shared).2.2 with
                sim :=
                  { (forEachUser rand numUsers r.shared.sim.users r.shared).2.2.sim with
                    users := (forEachUser rand numUsers r.shared.sim.users r.shared).2.1 } }
            rounds := r.rounds ++ [(forEachUser rand numUsers r.shared.sim.users r.shared).1] }
      else Except.ok r := rfl

/-- What holds when the `while` loop of `WiFi4::simulate` returns: the rounds it
added to the log all have one attempt per user, the latencies grew by one entry
per successful attempt, and the collision counter by one per failed attempt. -/
theorem whileLoop_spec (rand : Nat → Nat) (numUsers : Int) (duration : ℚ) :
    ∀ (fuel : Nat) (r r' : Run), whileLoop rand numUsers duration fuel r = Except.ok r' →
      r'.shared.sim.users.length = r.shared.sim.users.length ∧
      r'.shared.env.cerr = r.shared.env.cerr ∧
      ∃ newRounds, r'.rounds = r.rounds ++ newRounds ∧
        (∀ x ∈ newRounds, x.length = r.shared.sim.users.length) ∧
        (r.shared.currentTime < duration / 1000.0 → newRounds ≠ []) ∧
        (∃ new, r'.shared.sim.latencies = r.shared.sim.latencies ++ new ∧
          new.length = successesIn newRounds) ∧
        r'.shared.sim.collisionCount = r.shared.sim.collisionCount + (collisionsIn newRounds : Nat) := by
  intro fuel
  induction fuel with
  | zero =>
    intro r r' h
    rw [whileLoop_zero] at h
    split_ifs at h with hc
    cases h
    exact ⟨rfl, rfl, [], by simp, by simp, fun hlt => absurd hlt hc, ⟨[], by simp [successesIn]⟩,
      by simp [collisionsIn]⟩
  | succ fuel ih =>
    intro r r' h
    rw [whileLoop_succ] at h
    split_ifs at h with hc
    · obtain ⟨f1, f2, _, f4, ⟨new1, f5, f6⟩, f7⟩ :=
        forEachUser_spec rand numUsers r.shared.sim.users r.shared
      obtain ⟨j1, j2, newRounds, j3, j4, _, ⟨new2, j5, j6⟩, j7⟩ := ih _ r' h
      simp only at j1 j2 j3 j4 j5 j7
      refine ⟨by rw [j1, f2], by rw [j2, f4],
        (forEachUser rand numUsers r.shared.sim.users r.shared).1 :: newRounds,
        by rw [j3, List.append_assoc]; rfl, ?_, fun _ => by simp, ⟨new1 ++ new2, ?_, ?_⟩, ?_⟩
      · intro x hx
        rcases List.mem_cons.mp hx with rfl | hx
        · exact f1
        · rw [j4 x hx, f2]
      · rw [j5, f5, List.append_assoc]
      · simp only [List.length_append, f6, j6, successesIn, List.map_cons, List.sum_cons]
      · rw [j7, f7]
        simp only [collisionsIn, List.map_cons, List.sum_cons]
        push_cast
        ring
    · cases h
      exact ⟨rfl, rfl, [], by simp, by simp, fun hlt => absurd hlt hc, ⟨[], by simp [successesIn]⟩,
        by simp [collisionsIn]⟩

/-- The `while` loop of `WiFi4::simulate` returns once the fuel covers the time
that is left, at `0.00001` per round at least. -/
theorem whileLoop_terminates (rand : Nat → Nat) (numUsers : Int) (duration : ℚ) :
    ∀ (fuel : Nat) (r : Run), 1 ≤ r.shared.sim.users.length →
      duration / 1000.0 - r.shared.currentTime ≤ (fuel : ℚ) * 0.00001 →
      ∃ r', whileLoop rand numUsers duration fuel r = Except.ok r' := by
  intro fuel
  induction fuel with
  | zero =>
    intro r _ ht
    rw [whileLoop_zero]
    have hc : ¬ r.shared.currentTime < duration / 1000.0 := by
      simp only [Nat.cast_zero, zero_mul] at ht
      intro hlt
      linarith
    simp only [hc, if_false]
    exact ⟨r, rfl⟩
  | succ fuel ih =>
    intro r hu ht
    rw [whileLoop_succ]
    split_ifs with hc
    · obtain ⟨_, f2, f3, _, _, _⟩ := forEachUser_spec rand numUsers r.shared.sim.users r.shared
      apply ih
      · simp only [f2]; exact hu
      · simp only [f3]
        have hlen : (1 : ℚ) ≤ (r.shared.sim.users.length : ℚ) := by exact_mod_cast hu
        push_cast at ht
        nlinarith
    · exact ⟨r, rfl⟩

theorem attemptsIn_eq (rounds : List (List Bool)) :
    attemptsIn rounds = successesIn rounds + collisionsIn rounds := by
  induction rounds with
  | nil => rfl
  | cons x xs ih =>
    have hx : x.length = x.count true + x.count false := by
      induction x with
      | nil => rfl
      | cons b bs ihb => cases b <;> simp [List.count_cons] <;> omega
    simp only [attemptsIn, successesIn, collisionsIn, List.map_cons, List.sum_cons] at ih ⊢
    omega

theorem attemptsIn_of_uniform (rounds : List (List Bool)) (n : Nat)
    (h : ∀ x ∈ rounds, x.length = n) : attemptsIn rounds = n * rounds.length := by
  induction rounds with
  | nil => rfl
  | cons x xs ih =>
    have hx := h x (List.mem_cons_self _ _)
    have hxs := ih (fun y hy => h y (List.mem_cons_of_mem _ hy))
    simp only [attemptsIn, List.map_cons, List.sum_cons, List.length_cons] at hxs ⊢
    rw [hxs, hx]
    ring

theorem createUsers_spec (rand : Nat → Nat) :
    ∀ (n : Nat) (i : Int) (users : List User) (env : Env),
      (createUsers rand n i users env).1.length = users.length + n ∧
      (createUsers rand n i users env).2.cerr = env.cerr := by
  intro n
  induction n with
  | zero => intro i users env; exact ⟨rfl, rfl⟩
  | succ n ih =>
    intro i users env
    obtain ⟨h1, h2⟩ := ih (i + 1)
      (users ++ [User.mk i (20.0 + ((rand env.randPos % 20 : Nat) : ℚ))]) (callRand rand env).2
    refine ⟨?_, ?_⟩
    · refine Eq.trans h1 ?_
      simp only [List.length_append, List.length_singleton]; omega
    · exact Eq.trans h2 rfl

theorem validateParameters_ok (numUsers : Int) (duration : ℚ)
    (hn1 : 1 ≤ numUsers) (hn2 : numUsers ≤ 1000) (hd1 : 1 ≤ duration) (hd2 : duration ≤ 10000) :
    validateParameters numUsers duration = Except.ok () := by
  have h1 : ¬ (numUsers < 1 ∨ numUsers > 1000) := by omega
  have h2 : ¬ (duration < 1.0 ∨ duration > 10000.0) := by
    rintro (h | h)
    · norm_num at h; linarith
    · norm_num at h; linarith
  simp only [validateParameters, validateInput, h1, h2, if_false]

theorem validateParameters_error (numUsers : Int) (duration : ℚ)
    (h : numUsers < 1 ∨ 1000 < numUsers ∨ duration < 1 ∨ 10000 < duration) :
    validateParameters numUsers duration
        = Except.error (Fault.thrown "Number of users must be between 1 and 1000") ∨
    validateParameters numUsers duration
        = Except.error
            (Fault.thrown "Simulation duration must be between 1 and 10000 milliseconds") := by
  by_cases h1 : numUsers < 1 ∨ numUsers > 1000
  · left
    simp only [validateParameters, validateInput, h1, if_true]
  · right
    have h2 : duration < 1.0 ∨ duration > 10000.0 := by
      rcases h with h | h | h | h
      · exact absurd (Or.inl h) h1
      · exact absurd (Or.inr h) h1
      · left; norm_num; exact h
      · right; norm_num; exact h
    simp only [validateParameters, validateInput, h1, h2, if_true, if_false]

/-- A call of `WiFi4::simulate` with rejected parameters returns normally, with the
object as it was, one line more on `std::cerr`, no `rand()` call and no round. -/
theorem simulate_rejected (rand : Nat → Nat) (fuel : Nat) (w : WiFi4) (env : Env)
    (numUsers : Int) (duration : ℚ)
    (h : numUsers < 1 ∨ 1000 < numUsers ∨ duration < 1 ∨ 10000 < duration) :
    ∃ what, WiFi4.simulate rand fuel w env numUsers duration =
      Except.ok
        { sim := w
          env := { env with cerr := env.cerr ++ ["Input validation error: " ++ what ++ "\n"] }
          rounds := [] } := by
  rcases validateParameters_error numUsers duration h with hv | hv
  · exact ⟨"Number of users must be between 1 and 1000", by simp only [WiFi4.simulate, hv]⟩
  · exact ⟨"Simulation duration must be between 1 and 10000 milliseconds",
      by simp only [WiFi4.simulate, hv]⟩

theorem simulate_accepted_eq (rand : Nat → Nat) (fuel : Nat) (w : WiFi4) (env : Env)
    (numUsers : Int) (duration : ℚ)
    (hn1 : 1 ≤ numUsers) (hn2 : numUsers ≤ 1000) (hd1 : 1 ≤ duration) (hd2 : duration ≤ 10000) :
    WiFi4.simulate rand fuel w env numUsers duration =
      match whileLoop rand numUsers duration fuel
          { shared :=
              { sim :=
                  { w with
                    users := (createUsers rand numUsers.toNat 0 [] env).1
                    collisionCount := 0
                    backoffTimes := [] }
                env := (createUsers rand numUsers.toNat 0 [] env).2
                currentTime := 0 }
            rounds := [] } with
      | Except.error f => Except.error f
      | Except.ok r =>
        Except.ok
          { sim := r.shared.sim.updateThroughput numUsers
            env := r.shared.env
            rounds := r.rounds } := by
  simp only [WiFi4.simulate, validateParameters_ok numUsers duration hn1 hn2 hd1 hd2]

/-- With accepted parameters `WiFi4::simulate` returns, for every fuel from
`1000000` on. -/
theorem simulate_terminates (rand : Nat → Nat) (fuel : Nat) (w : WiFi4) (env : Env)
    (numUsers : Int) (duration : ℚ) (hf : 1000000 ≤ fuel)
    (hn1 : 1 ≤ numUsers) (hn2 : numUsers ≤ 1000) (hd1 : 1 ≤ duration) (hd2 : duration ≤ 10000) :
    ∃ r, WiFi4.simulate rand fuel w env numUsers duration = Except.ok r := by
  rw [simulate_accepted_eq rand fuel w env numUsers duration hn1 hn2 hd1 hd2]
  have hlen := (createUsers_spec rand numUsers.toNat 0 [] env).1
  obtain ⟨r', hr'⟩ := whileLoop_terminates rand numUsers duration fuel
    { shared :=
        { sim :=
            { w with
              users := (createUsers rand numUsers.toNat 0 [] env).1
              collisionCount := 0
              backoffTimes := [] }
          env := (createUsers rand numUsers.toNat 0 [] env).2
          currentTime := 0 }
      rounds := [] }
    (by simp only [hlen, List.length_nil]; omega)
    (by
      have hfq : (1000000 : ℚ) ≤ (fuel : ℚ) := by exact_mod_cast hf
      norm_num
      linarith)
  exact ⟨_, by rw [hr']⟩

/-- What holds when `WiFi4::simulate` returns from a call with accepted parameters. -/
theorem simulate_accepted_spec (rand : Nat → Nat) (fuel : Nat) (w : WiFi4) (env : Env)
    (numUsers : Int) (duration : ℚ) (r : Finished)
    (hn1 : 1 ≤ numUsers) (hn2 : numUsers ≤ 1000) (hd1 : 1 ≤ duration) (hd2 : duration ≤ 10000)
    (h : WiFi4.simulate rand fuel w env numUsers duration = Except.ok r) :
    r.env.cerr = env.cerr ∧
    r.rounds ≠ [] ∧
    (∀ x ∈ r.rounds, (x.length : Int) = numUsers) ∧
    (∃ new, r.sim.latencies = w.latencies ++ new ∧ new.length = successesIn r.rounds) ∧
    r.sim.collisionCount = (collisionsIn r.rounds : Nat) ∧
    r.sim.totalThroughput = 15.0 * stdMax 0.67 (1.0 - (0.01 * (numUsers : ℚ))) * 1e6 := by
  rw [simulate_accepted_eq rand fuel w env numUsers duration hn1 hn2 hd1 hd2] at h
  have hlen := (createUsers_spec rand numUsers.toNat 0 [] env).1
  have hcerr := (createUsers_spec rand numUsers.toNat 0 [] env).2
  split at h
  · cases h
  · rename_i r' hr'
    cases h
    obtain ⟨_, k2, newRounds, k3, k4, k5, ⟨new, k6, k7⟩, k8⟩ :=
      whileLoop_spec rand numUsers duration fuel _ r' hr'
    simp only [List.nil_append, Int.cast_zero, zero_add] at k2 k3 k4 k5 k6 k8
    refine ⟨by rw [k2, hcerr], ?_, ?_, ⟨new, ?_, ?_⟩, ?_, rfl⟩
    · rw [k3]
      apply k5
      norm_num
      linarith
    · intro x hx
      rw [k3] at hx
      rw [k4 x hx, hlen]
      simp only [List.length_nil, zero_add]
      omega
    · simpa [WiFi4.updateThroughput] using k6
    · rw [k3]; exact k7
    · simp only [WiFi4.updateThroughput, k8, k3]

/-- Two accepted calls of `WiFi4::simulate` in a row on a fresh object: the second
run resets the collision counter but appends to the latencies of the first, so the
object ends with one latency per success of either run. -/
theorem simulate_twice_latencies (rand : Nat → Nat) (fuel1 fuel2 : Nat) (env : Env)
    (n1 n2 : Int) (d1 d2 : ℚ) (first second : Finished)
    (hn1 : 1 ≤ n1) (hn1' : n1 ≤ 1000) (hd1 : 1 ≤ d1) (hd1' : d1 ≤ 10000)
    (hn2 : 1 ≤ n2) (hn2' : n2 ≤ 1000) (hd2 : 1 ≤ d2) (hd2' : d2 ≤ 10000)
    (h1 : WiFi4.simulate rand fuel1 WiFi4.new env n1 d1 = Except.ok first)
    (h2 : WiFi4.simulate rand fuel2 first.sim first.env n2 d2 = Except.ok second) :
    second.sim.latencies.length = successesIn first.rounds + successesIn second.rounds ∧
    second.sim.getCollisionCount + (second.sim.latencies.length : Int)
      = (attemptsIn second.rounds : Int) + (successesIn first.rounds : Int) := by
  obtain ⟨_, _, _, ⟨new1, a4, a5⟩, _, _⟩ :=
    simulate_accepted_spec rand fuel1 WiFi4.new env n1 d1 first hn1 hn1' hd1 hd1' h1
  obtain ⟨_, _, _, ⟨new2, b4, b5⟩, b6, _⟩ :=
    simulate_accepted_spec rand fuel2 first.sim first.env n2 d2 second hn2 hn2' hd2 hd2' h2
  have hl : second.sim.latencies.length = successesIn first.rounds + successesIn second.rounds := by
    rw [b4, a4]
    simp only [WiFi4.new, List.nil_append, List.length_append, a5, b5]
  refine ⟨hl, ?_⟩
  rw [WiFi4.getCollisionCount, b6, hl, attemptsIn_eq]
  push_cast
  ring

theorem threadBody_latencies_ge (rand : Nat → Nat) (numUsers : Int) (user : User) (s : Shared)
    (h : ∀ x ∈ s.sim.latencies, 0.8 ≤ x) :
    ∀ x ∈ (threadBody rand numUsers user s).2.2.sim.latencies, 0.8 ≤ x := by
  unfold threadBody
  simp only [User.transmit, callRand, WiFi4.handleCollision]
  cases hb : (rand s.env.randPos % 2 == 0)
  · simpa using h
  · intro x hx
    simp only [if_true, List.mem_append, List.mem_singleton] at hx
    rcases hx with hx | rfl
    · exact h x hx
    · rw [stdMax_eq_max]; exact le_max_left _ _

theorem forEachUser_latencies_ge (rand : Nat → Nat) (numUsers : Int) (users : List User)
    (s : Shared) (h : ∀ x ∈ s.sim.latencies, 0.8 ≤ x) :
    ∀ x ∈ (forEachUser rand numUsers users s).2.2.sim.latencies, 0.8 ≤ x := by
  induction users generalizing s with
  | nil => exact h
  | cons user rest ih =>
    rw [forEachUser_cons]
    exact ih _ (threadBody_latencies_ge rand numUsers user s h)

theorem whileLoop_latencies_ge (rand : Nat → Nat) (numUsers : Int) (duration : ℚ) :
    ∀ (fuel : Nat) (r r' : Run), whileLoop rand numUsers duration fuel r = Except.ok r' →
      (∀ x ∈ r.shared.sim.latencies, 0.8 ≤ x) → ∀ x ∈ r'.shared.sim.latencies, 0.8 ≤ x := by
  intro fuel
  induction fuel with
  | zero =>
    intro r r' h hr
    rw [whileLoop_zero] at h
    split_ifs at h
    cases h
    exact hr
  | succ fuel ih =>
    intro r r' h hr
    rw [whileLoop_succ] at h
    split_ifs at h
    · exact ih _ r' h (forEachUser_latencies_ge rand numUsers _ _ hr)
    · cases h
      exact hr

/-- Every latency that `WiFi4::simulate` records is at least 0.8: if the object held
only such latencies before a call, it holds only such latencies after it. -/
theorem simulate_latencies_ge (rand : Nat → Nat) (fuel : Nat) (w : WiFi4) (env : Env)
    (numUsers : Int) (duration : ℚ) (r : Finished)
    (h : WiFi4.simulate rand fuel w env numUsers duration = Except.ok r)
    (hw : ∀ x ∈ w.latencies, 0.8 ≤ x) : ∀ x ∈ r.sim.latencies, 0.8 ≤ x := by
  by_cases hv : numUsers < 1 ∨ 1000 < numUsers ∨ duration < 1 ∨ 10000 < duration
  · obtain ⟨what, hwhat⟩ := simulate_rejected rand fuel w env numUsers duration hv
    rw [hwhat] at h
    cases h
    exact hw
  · have hn1 : 1 ≤ numUsers := by
      by_contra hc; exact hv (Or.inl (by omega))
    have hn2 : numUsers ≤ 1000 := by
      by_contra hc; exact hv (Or.inr (Or.inl (by omega)))
    have hd1 : 1 ≤ duration := by
      by_contra hc; exact hv (Or.inr (Or.inr (Or.inl (not_le.mp hc))))
    have hd2 : duration ≤ 10000 := by
      by_contra hc; exact hv (Or.inr (Or.inr (Or.inr (not_le.mp hc))))
    rw [simulate_accepted_eq rand fuel w env numUsers duration hn1 hn2 hd1 hd2] at h
    split at h
    · cases h
    · rename_i r' hr'
      cases h
      exact whileLoop_latencies_ge rand numUsers duration fuel _ r' hr' hw

end wifi4

/-! ## Gen-C (wifi6.cpp) theorems -/

namespace wifi6

/-- C1: for the simulator built with numUsers=100, numSubchannels=4, bandwidthMHz=80
the average latency is 530 and the maximum latency is 1191; and for every
numUsers >= 0, numSubchannels >= 1, every bandwidth and packet size,
getAverageLatency() = 5 + (numUsers/numSubchannels)*1.2*17.5 and
getMaxLatency() = 5 + (numUsers/numSubchannels)*2.0*23.72 with the quotient taken
in the rationals (not integer division). -/
theorem C1_latency_closed_form :
    (∀ packetSize : Int,
      (WiFi6.new 100 4 80 packetSize).getAverageLatency = 530 ∧
      (WiFi6.new 100 4 80 packetSize).getMaxLatency = 1191) ∧
    (∀ (numUsers numSubchannels : Int) (bandwidthMHz : ℚ) (packetSize : Int),
      0 ≤ numUsers → 1 ≤ numSubchannels →
      (WiFi6.new numUsers numSubchannels bandwidthMHz packetSize).getAverageLatency
        = 5 + ((numUsers : ℚ) / (numSubchannels : ℚ)) * 1.2 * 17.5 ∧
      (WiFi6.new numUsers numSubchannels bandwidthMHz packetSize).getMaxLatency
        = 5 + ((numUsers : ℚ) / (numSubchannels : ℚ)) * 2.0 * 23.72) := by
  refine ⟨fun packetSize => ?_, fun numUsers numSubchannels bandwidthMHz packetSize _ _ => ?_⟩
  · constructor <;>
      simp only [WiFi6.getAverageLatency, WiFi6.getMaxLatency, WiFi6.new,
        Constants.OFDMA_PARALLEL_TIME_MS] <;> norm_num
  · constructor <;>
      simp only [WiFi6.getAverageLatency, WiFi6.getMaxLatency, WiFi6.new,
        Constants.OFDMA_PARALLEL_TIME_MS] <;> norm_num

/-- C1, at a concrete input: 7 users on 2 subchannels at 40 MHz. -/
theorem C1_latency_closed_form_witness :
    (0 : Int) ≤ 7 ∧ (1 : Int) ≤ 2 ∧
    (WiFi6.new 7 2 40 1500).getAverageLatency = 5 + (((7 : Int) : ℚ) / ((2 : Int) : ℚ)) * 1.2 * 17.5 ∧
    (WiFi6.new 7 2 40 1500).getMaxLatency = 5 + (((7 : Int) : ℚ) / ((2 : Int) : ℚ)) * 2.0 * 23.72 :=
  ⟨by decide, by decide, C1_latency_closed_form.2 7 2 40 1500 (by decide) (by decide)⟩

/-- The throughput of `WiFi6::calculateThroughput`, written with `min` and `max`. -/
theorem calculateThroughput_eq (w : WiFi6) :
    w.calculateThroughput =
      max (min (w.bandwidthMHz / (w.numSubchannels : ℚ) * 2.0 * 0.75
                  / (1.0 + 0.1 * ((w.numUsers : ℚ) / (w.numSubchannels : ℚ)))
                  * (w.numSubchannels : ℚ))
               (w.bandwidthMHz * 2.0 * 0.75)) 1.0001 := by
  simp only [WiFi6.calculateThroughput, stdMax_eq_max, stdMin_eq_min,
    Constants.BITS_PER_SYMBOL, Constants.CODING_RATE]

/-- C2: for fixed numUsers >= 1 and numSubchannels >= 1, calculateThroughput() is
non-decreasing in bandwidthMHz, and for every bandwidth it is at least 1.0001. -/
theorem C2_throughput_monotone_and_floored (numUsers numSubchannels packetSize : Int)
    (b1 b2 : ℚ) (hu : 1 ≤ numUsers) (hs : 1 ≤ numSubchannels) (hb : b1 ≤ b2) :
    (WiFi6.new numUsers numSubchannels b1 packetSize).calculateThroughput
      ≤ (WiFi6.new numUsers numSubchannels b2 packetSize).calculateThroughput ∧
    1.0001 ≤ (WiFi6.new numUsers numSubchannels b1 packetSize).calculateThroughput ∧
    1.0001 ≤ (WiFi6.new numUsers numSubchannels b2 packetSize).calculateThroughput := by
  have hsq : (0 : ℚ) < (numSubchannels : ℚ) := by
    have : (0 : Int) < numSubchannels := by omega
    exact_mod_cast this
  have huq : (0 : ℚ) ≤ (numUsers : ℚ) := by
    have : (0 : Int) ≤ numUsers := by omega
    exact_mod_cast this
  have hpen : (0 : ℚ) < 1.0 + 0.1 * ((numUsers : ℚ) / (numSubchannels : ℚ)) := by
    have : (0 : ℚ) ≤ (numUsers : ℚ) / (numSubchannels : ℚ) := div_nonneg huq hsq.le
    norm_num
    linarith
  rw [calculateThroughput_eq, calculateThroughput_eq]
  simp only [WiFi6.new]
  refine ⟨?_, le_max_right _ _, le_max_right _ _⟩
  apply max_le_max _ le_rfl
  apply min_le_min
  · apply mul_le_mul_of_nonneg_right _ hsq.le
    apply div_le_div_of_nonneg_right _ hpen.le
    apply mul_le_mul_of_nonneg_right _ (by norm_num)
    apply mul_le_mul_of_nonneg_right _ (by norm_num)
    exact div_le_div_of_nonneg_right hb hsq.le
  · apply mul_le_mul_of_nonneg_right _ (by norm_num)
    exact mul_le_mul_of_nonneg_right hb (by norm_num)

/-- C2, at a concrete input: 10 users, 4 subchannels, bandwidths 20 and 80. -/
theorem C2_throughput_monotone_and_floored_witness :
    (WiFi6.new 10 4 20 1500).calculateThroughput ≤ (WiFi6.new 10 4 80 1500).calculateThroughput ∧
    1.0001 ≤ (WiFi6.new 10 4 20 1500).calculateThroughput ∧
    1.0001 ≤ (WiFi6.new 10 4 80 1500).calculateThroughput :=
  C2_throughput_monotone_and_floored 10 4 1500 20 80 (by decide) (by decide) (by decide!)

/-- C3: for fixed numSubchannels >= 1 and user counts n1 <= n2, getAverageLatency()
with n1 users is at most its value with n2 users, and likewise getMaxLatency(). -/
theorem C3_latency_monotone_in_users (n1 n2 numSubchannels packetSize : Int)
    (bandwidthMHz : ℚ) (hs : 1 ≤ numSubchannels) (hn : n1 ≤ n2) :
    (WiFi6.new n1 numSubchannels bandwidthMHz packetSize).getAverageLatency
      ≤ (WiFi6.new n2 numSubchannels bandwidthMHz packetSize).getAverageLatency ∧
    (WiFi6.new n1 numSubchannels bandwidthMHz packetSize).getMaxLatency
      ≤ (WiFi6.new n2 numSubchannels bandwidthMHz packetSize).getMaxLatency := by
  have hsq : (0 : ℚ) < (numSubchannels : ℚ) := by
    have : (0 : Int) < numSubchannels := by omega
    exact_mod_cast this
  have hnq : (n1 : ℚ) ≤ (n2 : ℚ) := by exact_mod_cast hn
  have hdiv : (n1 : ℚ) / (numSubchannels : ℚ) ≤ (n2 : ℚ) / (numSubchannels : ℚ) :=
    div_le_div_of_nonneg_right hnq hsq.le
  simp only [WiFi6.getAverageLatency, WiFi6.getMaxLatency, WiFi6.new,
    Constants.OFDMA_PARALLEL_TIME_MS]
  constructor
  · have h1 : (n1 : ℚ) / (numSubchannels : ℚ) * 1.2 * 17.5
        ≤ (n2 : ℚ) / (numSubchannels : ℚ) * 1.2 * 17.5 := by
      apply mul_le_mul_of_nonneg_right _ (by norm_num)
      exact mul_le_mul_of_nonneg_right hdiv (by norm_num)
    linarith
  · have h2 : (n1 : ℚ) / (numSubchannels : ℚ) * 2.0 * 23.72
        ≤ (n2 : ℚ) / (numSubchannels : ℚ) * 2.0 * 23.72 := by
      apply mul_le_mul_of_nonneg_right _ (by norm_num)
      exact mul_le_mul_of_nonneg_right hdiv (by norm_num)
    linarith

/-- C3, at a concrete input: 10 and 100 users on 4 subchannels. -/
theorem C3_latency_monotone_in_users_witness :
    (WiFi6.new 10 4 80 1500).getAverageLatency ≤ (WiFi6.new 100 4 80 1500).getAverageLatency ∧
    (WiFi6.new 10 4 80 1500).getMaxLatency ≤ (WiFi6.new 100 4 80 1500).getMaxLatency :=
  C3_latency_monotone_in_users 10 100 4 1500 80 (by decide) (by decide)

end wifi6


/-! ## Gen-A and Gen-B: the empirical latency queries -/

/-- C4 (as amended): for the latency queries of WiFi4 and WiFi5, when the recorded
latency sequence is empty getAverageLatency() and getMaxLatency() both return 0;
when it is non-empty getMaxLatency() is an element of the sequence that no element
exceeds, the exact arithmetic mean of the sequence is <= getMaxLatency(), and
getAverageLatency(), computed in double arithmetic over n <= 2^53 latencies that
each lie between 0.8 and 2^900, is <= getMaxLatency() * (1 + 2^-53)^(n+1). In
that range no partial sum overflows or is subnormal and size() converts exactly,
so `roundDouble` is the binary64 operation. -/
theorem C4_average_le_max_up_to_rounding (w4 : wifi4.WiFi4) (w5 : wifi5.WiFi5) :
    (w4.latencies = [] → w4.getAverageLatency = 0 ∧ w4.getMaxLatency = 0) ∧
    (w4.latencies ≠ [] →
      w4.getMaxLatency ∈ w4.latencies ∧ (∀ x ∈ w4.latencies, x ≤ w4.getMaxLatency) ∧
      w4.latencies.sum / (w4.latencies.length : ℚ) ≤ w4.getMaxLatency ∧
      ((∀ x ∈ w4.latencies, 0.8 ≤ x ∧ x ≤ 2 ^ 900) → w4.latencies.length ≤ 2 ^ 53 →
        w4.getAverageLatency
          ≤ w4.getMaxLatency * (1 + 1 / 2 ^ 53) ^ (w4.latencies.length + 1))) ∧
    (w5.latencies = [] → w5.getAverageLatency = 0 ∧ w5.getMaxLatency = 0) ∧
    (w5.latencies ≠ [] →
      w5.getMaxLatency ∈ w5.latencies ∧ (∀ x ∈ w5.latencies, x ≤ w5.getMaxLatency) ∧
      w5.latencies.sum / (w5.latencies.length : ℚ) ≤ w5.getMaxLatency ∧
      ((∀ x ∈ w5.latencies, 0.8 ≤ x ∧ x ≤ 2 ^ 900) → w5.latencies.length ≤ 2 ^ 53 →
        w5.getAverageLatency
          ≤ w5.getMaxLatency * (1 + 1 / 2 ^ 53) ^ (w5.latencies.length + 1))) := by
  have hnonneg : ∀ x : ℚ, 0.8 ≤ x → 0 ≤ x := fun x hx => le_trans (by norm_num) hx
  refine ⟨fun he => ?_, fun hne => ?_, fun he => ?_, fun hne => ?_⟩
  · simp only [wifi4.WiFi4.getAverageLatency, wifi4.WiFi4.getMaxLatency, he, List.isEmpty_nil,
      if_true]
    norm_num
  · obtain ⟨m, hm, hmem, hub, hle⟩ := maxElement_spec w4.latencies hne
    have hemp : w4.latencies.isEmpty = false := by
      cases hl : w4.latencies with
      | nil => exact absurd hl hne
      | cons a as => rfl
    simp only [wifi4.WiFi4.getAverageLatency, wifi4.WiFi4.getMaxLatency, hemp, hm,
      Bool.false_eq_true, if_false]
    exact ⟨hmem, hub, hle, fun hr _ =>
      roundedMean_le w4.latencies m hne (fun x hx => ⟨hnonneg x (hr x hx).1, hub x hx⟩)⟩
  · simp only [wifi5.WiFi5.getAverageLatency, wifi5.WiFi5.getMaxLatency, he, List.isEmpty_nil,
      if_true]
    norm_num
  · obtain ⟨m, hm, hmem, hub, hle⟩ := maxElement_spec w5.latencies hne
    have hemp : w5.latencies.isEmpty = false := by
      cases hl : w5.latencies with
      | nil => exact absurd hl hne
      | cons a as => rfl
    simp only [wifi5.WiFi5.getAverageLatency, wifi5.WiFi5.getMaxLatency, hemp, hm,
      Bool.false_eq_true, if_false]
    exact ⟨hmem, hub, hle, fun hr _ =>
      roundedMean_le w5.latencies m hne (fun x hx => ⟨hnonneg x (hr x hx).1, hub x hx⟩)⟩

/-- C4 (as amended), at a concrete input: three times the double 0.8 in a WiFi4
object, the input at which the average exceeds the maximum, and the latencies
5, 7.3 in a WiFi5 object. -/
theorem C4_average_le_max_up_to_rounding_witness :
    ({ wifi4.WiFi4.new with
        latencies := List.replicate 3 (roundDouble 0.8) } : wifi4.WiFi4).getAverageLatency
      ≤ ({ wifi4.WiFi4.new with
        latencies := List.replicate 3 (roundDouble 0.8) } : wifi4.WiFi4).getMaxLatency
          * (1 + 1 / 2 ^ 53) ^ (3 + 1) ∧
    ({ wifi5.WiFi5.new with latencies := [5, 7.3] } : wifi5.WiFi5).getAverageLatency
      ≤ ({ wifi5.WiFi5.new with latencies := [5, 7.3] } : wifi5.WiFi5).getMaxLatency
          * (1 + 1 / 2 ^ 53) ^ (2 + 1) :=
  ⟨((C4_average_le_max_up_to_rounding
      { wifi4.WiFi4.new with latencies := List.replicate 3 (roundDouble 0.8) }
      { wifi5.WiFi5.new with latencies := [5, 7.3] }).2.1 (by simp)).2.2.2
      (by
        intro x hx
        rw [List.eq_of_mem_replicate hx]
        exact ⟨by decide!, by decide!⟩)
      (by simp),
   ((C4_average_le_max_up_to_rounding
      { wifi4.WiFi4.new with latencies := List.replicate 3 (roundDouble 0.8) }
      { wifi5.WiFi5.new with latencies := [5, 7.3] }).2.2.2 (by simp)).2.2.2
      (by
        intro x hx
        simp only [List.mem_cons, List.mem_singleton, List.not_mem_nil, or_false] at hx
        rcases hx with rfl | rfl <;> norm_num)
      (by simp)⟩

/-- C4 (counterexample): average above maximum. A WiFi4 object holding three times
the double 0.8, which is what `std::max(0.8, latency)` records for one user with
jitter 0 or 1: the sums are 0.8, 1.6, 2.4000000000000004 and the quotient by 3 is
0.8000000000000002 = 7205759403792795 / 2^53, above the maximum
0.8 = 7205759403792794 / 2^53. A WiFi5 object holding five times the double 6.601,
which one user records with jitters 0 and 9: the average is 6.601000000000001. -/
theorem C4_rounded_average_exceeds_max :
    ({ wifi4.WiFi4.new with
        latencies := [roundDouble 0.8, roundDouble 0.8, roundDouble 0.8] } : wifi4.WiFi4).getMaxLatency
      = 7205759403792794 / 2 ^ 53 ∧
    ({ wifi4.WiFi4.new with
        latencies := [roundDouble 0.8, roundDouble 0.8, roundDouble 0.8] } : wifi4.WiFi4).getAverageLatency
      = 7205759403792795 / 2 ^ 53 ∧
    ({ wifi4.WiFi4.new with
        latencies := [roundDouble 0.8, roundDouble 0.8, roundDouble 0.8] } : wifi4.WiFi4).getMaxLatency
      < ({ wifi4.WiFi4.new with
        latencies := [roundDouble 0.8, roundDouble 0.8, roundDouble 0.8] } : wifi4.WiFi4).getAverageLatency ∧
    ({ wifi5.WiFi5.new with
        latencies := List.replicate 5 (roundDouble 6.601) } : wifi5.WiFi5).getMaxLatency
      < ({ wifi5.WiFi5.new with
        latencies := List.replicate 5 (roundDouble 6.601) } : wifi5.WiFi5).getAverageLatency := by
  refine ⟨by decide!, by decide!, by decide!, by decide!⟩

/-! ## Gen-A (wifi4.cpp) theorems -/

namespace wifi4

theorem whileLoop_fault (rand : Nat → Nat) (numUsers : Int) (duration : ℚ) :
    ∀ (fuel : Nat) (r : Run) (f : Fault),
      whileLoop rand numUsers duration fuel r = Except.error f → f = Fault.outOfFuel := by
  intro fuel
  induction fuel with
  | zero =>
    intro r f h
    rw [whileLoop_zero] at h
    split_ifs at h
    cases h
    rfl
  | succ fuel ih =>
    intro r f h
    rw [whileLoop_succ] at h
    split_ifs at h
    exact ih _ f h

theorem simulate_fault (rand : Nat → Nat) (fuel : Nat) (w : WiFi4) (env : Env)
    (numUsers : Int) (duration : ℚ) (f : Fault)
    (h : WiFi4.simulate rand fuel w env numUsers duration = Except.error f) :
    f = Fault.outOfFuel := by
  by_cases hv : numUsers < 1 ∨ 1000 < numUsers ∨ duration < 1 ∨ 10000 < duration
  · obtain ⟨what, hw⟩ := simulate_rejected rand fuel w env numUsers duration hv
    rw [hw] at h
    cases h
  · have hn1 : 1 ≤ numUsers := by
      by_contra hc; exact hv (Or.inl (by omega))
    have hn2 : numUsers ≤ 1000 := by
      by_contra hc; exact hv (Or.inr (Or.inl (by omega)))
    have hd1 : 1 ≤ duration := by
      by_contra hc; exact hv (Or.inr (Or.inr (Or.inl (not_le.mp hc))))
    have hd2 : duration ≤ 10000 := by
      by_contra hc; exact hv (Or.inr (Or.inr (Or.inr (not_le.mp hc))))
    rw [simulate_accepted_eq rand fuel w env numUsers duration hn1 hn2 hd1 hd2] at h
    split at h
    · rename_i f' hf'
      cases h
      exact whileLoop_fault rand numUsers duration fuel _ _ hf'
    · cases h

/-- C5 (as amended, Gen-A only): a call of WiFi4::simulate never throws to its
caller; with numUsers outside [1,1000] or durationMs outside [1,10000] it returns
normally after writing one "Input validation error: ..." line to std::cerr, with
the object unchanged, no rand() call made and no round run; with both parameters
in range it returns (for every fuel from 1000000 on), and whenever it returns it
has written nothing to std::cerr and has run at least one round. -/
theorem C5_wifi4_rejection_is_logged (rand : Nat → Nat) (fuel : Nat) (w : WiFi4) (env : Env)
    (numUsers : Int) (duration : ℚ) :
    (∀ what, WiFi4.simulate rand fuel w env numUsers duration ≠ Except.error (Fault.thrown what)) ∧
    ((numUsers < 1 ∨ 1000 < numUsers ∨ duration < 1 ∨ 10000 < duration) →
      ∃ what, WiFi4.simulate rand fuel w env numUsers duration =
        Except.ok
          { sim := w
            env := { env with cerr := env.cerr ++ ["Input validation error: " ++ what ++ "\n"] }
            rounds := [] }) ∧
    ((1 ≤ numUsers ∧ numUsers ≤ 1000 ∧ 1 ≤ duration ∧ duration ≤ 10000) →
      (1000000 ≤ fuel → ∃ r, WiFi4.simulate rand fuel w env numUsers duration = Except.ok r) ∧
      ∀ r, WiFi4.simulate rand fuel w env numUsers duration = Except.ok r →
        r.env.cerr = env.cerr ∧ r.rounds ≠ []) := by
  refine ⟨fun what h => ?_, fun h => simulate_rejected rand fuel w env numUsers duration h,
    fun h => ⟨fun hf => ?_, fun r hr => ?_⟩⟩
  · have := simulate_fault rand fuel w env numUsers duration _ h
    cases this
  · exact simulate_terminates rand fuel w env numUsers duration hf h.1 h.2.1 h.2.2.1 h.2.2.2
  · obtain ⟨h1, h2, _⟩ :=
      simulate_accepted_spec rand fuel w env numUsers duration r h.1 h.2.1 h.2.2.1 h.2.2.2 hr
    exact ⟨h1, h2⟩

/-- C5 (as amended), at concrete inputs: simulate(0, 100) on a fresh simulator is
rejected by a line on std::cerr and a normal return. -/
theorem C5_wifi4_rejection_is_logged_witness :
    ∃ what, WiFi4.simulate (fun n => n) 3 WiFi4.new (Env.mk 0 []) 0 100 =
      Except.ok
        { sim := WiFi4.new
          env := { (Env.mk 0 []) with cerr := [] ++ ["Input validation error: " ++ what ++ "\n"] }
          rounds := [] } :=
  (C5_wifi4_rejection_is_logged (fun n => n) 3 WiFi4.new (Env.mk 0 []) 0 100).2.1
    (Or.inl (by decide))

/-- C6: for every simulator state and every (numUsers, durationMs) with numUsers
outside [1,1000] or durationMs outside [1,10000], WiFi4::simulate returns with
latencies, collisionCount, totalThroughput and the user list (indeed the whole
object) unchanged; and on a freshly constructed simulator, after simulate(0, 100)
or simulate(5, 0), calculateThroughput(), getAverageLatency(), getMaxLatency() and
getCollisionCount() all return 0. -/
theorem C6_rejection_leaves_state_unchanged :
    (∀ (rand : Nat → Nat) (fuel : Nat) (w : WiFi4) (env : Env) (numUsers : Int) (duration : ℚ),
      (numUsers < 1 ∨ 1000 < numUsers ∨ duration < 1 ∨ 10000 < duration) →
      ∃ r, WiFi4.simulate rand fuel w env numUsers duration = Except.ok r ∧
        r.sim = w ∧ r.sim.latencies = w.latencies ∧ r.sim.collisionCount = w.collisionCount ∧
        r.sim.totalThroughput = w.totalThroughput ∧ r.sim.users = w.users) ∧
    (∀ (rand : Nat → Nat) (fuel : Nat) (env : Env),
      ∃ r, WiFi4.simulate rand fuel WiFi4.new env 0 100 = Except.ok r ∧
        r.sim.calculateThroughput = 0 ∧ r.sim.getAverageLatency = 0 ∧
        r.sim.getMaxLatency = 0 ∧ r.sim.getCollisionCount = 0) ∧
    (∀ (rand : Nat → Nat) (fuel : Nat) (env : Env),
      ∃ r, WiFi4.simulate rand fuel WiFi4.new env 5 0 = Except.ok r ∧
        r.sim.calculateThroughput = 0 ∧ r.sim.getAverageLatency = 0 ∧
        r.sim.getMaxLatency = 0 ∧ r.sim.getCollisionCount = 0) := by
  have fresh : WiFi4.new.calculateThroughput = 0 ∧ WiFi4.new.getAverageLatency = 0 ∧
      WiFi4.new.getMaxLatency = 0 ∧ WiFi4.new.getCollisionCount = 0 := by
    refine ⟨?_, ?_, ?_, rfl⟩
    · simp only [WiFi4.calculateThroughput, WiFi4.new]; norm_num
    · simp only [WiFi4.getAverageLatency, WiFi4.new, List.isEmpty_nil, if_true]; norm_num
    · simp only [WiFi4.getMaxLatency, WiFi4.new, List.isEmpty_nil, if_true]; norm_num
  refine ⟨fun rand fuel w env numUsers duration h => ?_, fun rand fuel env => ?_,
    fun rand fuel env => ?_⟩
  · obtain ⟨what, hw⟩ := simulate_rejected rand fuel w env numUsers duration h
    exact ⟨_, hw, rfl, rfl, rfl, rfl, rfl⟩
  · obtain ⟨what, hw⟩ := simulate_rejected rand fuel WiFi4.new env 0 100 (Or.inl (by decide))
    exact ⟨_, hw, fresh⟩
  · obtain ⟨what, hw⟩ := simulate_rejected rand fuel WiFi4.new env 5 0
      (Or.inr (Or.inr (Or.inl (by norm_num))))
    exact ⟨_, hw, fresh⟩

/-- C6, at a concrete input: simulate(1001, 50) on a simulator that holds two
latencies and three collisions. -/
theorem C6_rejection_leaves_state_unchanged_witness :
    ∃ r, WiFi4.simulate (fun n => n) 3
        { WiFi4.new with latencies := [0.8, 1.5], collisionCount := 3 } (Env.mk 7 []) 1001 50
          = Except.ok r ∧
      r.sim = { WiFi4.new with latencies := [0.8, 1.5], collisionCount := 3 } ∧
      r.sim.latencies = [0.8, 1.5] ∧ r.sim.collisionCount = 3 ∧
      r.sim.totalThroughput = WiFi4.new.totalThroughput ∧ r.sim.users = [] :=
  C6_rejection_leaves_state_unchanged.1 (fun n => n) 3
    { WiFi4.new with latencies := [0.8, 1.5], collisionCount := 3 } (Env.mk 7 []) 1001 50
    (Or.inr (Or.inl (by decide)))

/-- C7: for numUsers in [1,1000] and durationMs in [1,10000] and every rand()
stream, WiFi4::simulate on a freshly constructed simulator returns (for every fuel
from 1000000 on); and whenever it returns, every round it ran issued exactly
numUsers attempts, getCollisionCount() plus the number of latencies recorded equals
the number of attempts issued, and that number is numUsers times the number of
rounds. -/
theorem C7_attempt_conservation (rand : Nat → Nat) (env : Env) (numUsers : Int) (duration : ℚ)
    (hn1 : 1 ≤ numUsers) (hn2 : numUsers ≤ 1000) (hd1 : 1 ≤ duration) (hd2 : duration ≤ 10000) :
    (∀ fuel, 1000000 ≤ fuel →
      ∃ r, WiFi4.simulate rand fuel WiFi4.new env numUsers duration = Except.ok r) ∧
    (∀ fuel r, WiFi4.simulate rand fuel WiFi4.new env numUsers duration = Except.ok r →
      (∀ round ∈ r.rounds, (round.length : Int) = numUsers) ∧
      r.sim.getCollisionCount + (r.sim.latencies.length : Int) = (attemptsIn r.rounds : Int) ∧
      (attemptsIn r.rounds : Int) = numUsers * (r.rounds.length : Int)) := by
  refine ⟨fun fuel hf =>
    simulate_terminates rand fuel WiFi4.new env numUsers duration hf hn1 hn2 hd1 hd2,
    fun fuel r hr => ?_⟩
  obtain ⟨_, _, h3, ⟨new, h4, h5⟩, h6, _⟩ :=
    simulate_accepted_spec rand fuel WiFi4.new env numUsers duration r hn1 hn2 hd1 hd2 hr
  have huni : ∀ x ∈ r.rounds, x.length = numUsers.toNat := by
    intro x hx
    have := h3 x hx
    omega
  refine ⟨h3, ?_, ?_⟩
  · have hl : r.sim.latencies.length = successesIn r.rounds := by
      rw [h4]; simpa [WiFi4.new] using h5
    rw [WiFi4.getCollisionCount, h6, hl, attemptsIn_eq]
    push_cast
    ring
  · rw [attemptsIn_of_uniform r.rounds numUsers.toNat huni]
    push_cast
    rw [Int.toNat_of_nonneg (by omega)]

/-- C7, at a concrete input: 50 users for 1 ms. -/
theorem C7_attempt_conservation_witness :
    (∀ fuel, 1000000 ≤ fuel →
      ∃ r, WiFi4.simulate (fun n => n) fuel WiFi4.new (Env.mk 0 []) 50 1 = Except.ok r) ∧
    (∀ fuel r, WiFi4.simulate (fun n => n) fuel WiFi4.new (Env.mk 0 []) 50 1 = Except.ok r →
      (∀ round ∈ r.rounds, (round.length : Int) = 50) ∧
      r.sim.getCollisionCount + (r.sim.latencies.length : Int) = (attemptsIn r.rounds : Int) ∧
      (attemptsIn r.rounds : Int) = 50 * (r.rounds.length : Int)) :=
  C7_attempt_conservation (fun n => n) (Env.mk 0 []) 50 1 (by decide) (by decide)
    (by norm_num) (by norm_num)

/-- C8: for numUsers in [1,1000], durationMs in [1,10000], every rand() stream and
every starting state, WiFi4::simulate returns (for every fuel from 1000000 on), and
whenever it returns calculateThroughput() equals 15 * max(0.67, 1 - 0.01 * numUsers),
whatever the run accumulated; so it is at least 10.05, and equals 10.05 when
numUsers >= 33. -/
theorem C8_throughput_finalization (rand : Nat → Nat) (w : WiFi4) (env : Env)
    (numUsers : Int) (duration : ℚ)
    (hn1 : 1 ≤ numUsers) (hn2 : numUsers ≤ 1000) (hd1 : 1 ≤ duration) (hd2 : duration ≤ 10000) :
    (∀ fuel, 1000000 ≤ fuel →
      ∃ r, WiFi4.simulate rand fuel w env numUsers duration = Except.ok r) ∧
    (∀ fuel r, WiFi4.simulate rand fuel w env numUsers duration = Except.ok r →
      r.sim.calculateThroughput = 15 * max 0.67 (1 - 0.01 * (numUsers : ℚ)) ∧
      10.05 ≤ r.sim.calculateThroughput ∧
      (33 ≤ numUsers → r.sim.calculateThroughput = 10.05)) := by
  refine ⟨fun fuel hf =>
    simulate_terminates rand fuel w env numUsers duration hf hn1 hn2 hd1 hd2,
    fun fuel r hr => ?_⟩
  obtain ⟨_, _, _, _, _, h6⟩ :=
    simulate_accepted_spec rand fuel w env numUsers duration r hn1 hn2 hd1 hd2 hr
  have heq : r.sim.calculateThroughput = 15 * max 0.67 (1 - 0.01 * (numUsers : ℚ)) := by
    rw [WiFi4.calculateThroughput, h6, stdMax_eq_max]
    norm_num
  refine ⟨heq, ?_, fun h33 => ?_⟩
  · rw [heq]
    have hfloor : (0.67 : ℚ) ≤ max 0.67 (1 - 0.01 * (numUsers : ℚ)) := le_max_left _ _
    have h1005 : (10.05 : ℚ) = 15 * 0.67 := by norm_num
    rw [h1005]
    exact mul_le_mul_of_nonneg_left hfloor (by norm_num)
  · rw [heq]
    have hq : (33 : ℚ) ≤ (numUsers : ℚ) := by exact_mod_cast h33
    have : max (0.67 : ℚ) (1 - 0.01 * (numUsers : ℚ)) = 0.67 := by
      apply max_eq_left
      norm_num
      linarith
    rw [this]
    norm_num

/-- C8, at a concrete input: 40 users for 2 ms, on a simulator that already holds
a throughput value. -/
theorem C8_throughput_finalization_witness :
    (∀ fuel, 1000000 ≤ fuel →
      ∃ r, WiFi4.simulate (fun n => n) fuel { WiFi4.new with totalThroughput := 123 }
        (Env.mk 0 []) 40 2 = Except.ok r) ∧
    (∀ fuel r, WiFi4.simulate (fun n => n) fuel { WiFi4.new with totalThroughput := 123 }
        (Env.mk 0 []) 40 2 = Except.ok r →
      r.sim.calculateThroughput = 15 * max 0.67 (1 - 0.01 * ((40 : Int) : ℚ)) ∧
      10.05 ≤ r.sim.calculateThroughput ∧
      ((33 : Int) ≤ 40 → r.sim.calculateThroughput = 10.05)) :=
  C8_throughput_finalization (fun n => n) { WiFi4.new with totalThroughput := 123 }
    (Env.mk 0 []) 40 2 (by decide) (by decide) (by norm_num) (by norm_num)

end wifi4

/-! ## Calls on one object in a row, and calls with out-of-range parameters -/

/-- C10 (the code at the failing input): two calls simulate(100, 1) in a row on one
WiFi4 object, with every transmit succeeding. The second run issues 100 attempts,
all successful, and resets the collision counter, yet the object then holds 200
latencies: the 100 of the first run are still there. -/
theorem C10_latencies_survive_next_run :
    ((wifi4.WiFi4.simulate (fun _ => 0) 1 wifi4.WiFi4.new (Env.mk 0 []) 100 1).bind
        (fun first => wifi4.WiFi4.simulate (fun _ => 0) 1 first.sim first.env 100 1)).map
        (fun second =>
          (second.sim.latencies.length, wifi4.successesIn second.rounds,
            second.sim.getCollisionCount, wifi4.attemptsIn second.rounds))
      = Except.ok (200, 100, 0, 100) := by
  decide!

/-- C5 (counterexample): out-of-range calls that do not fail. WiFi4::simulate(0, 100)
and WiFi4::simulate(5, 0) on a fresh simulator return normally, the only trace being
a line on std::cerr; WiFi6::simulate(0, 100) and WiFi6::simulate(5, 0) return
normally and change nothing; WiFi5::simulate(5, 0.0001) returns normally after
running a slot and recording a latency. -/
theorem C5_out_of_range_calls_return_normally :
    wifi4.WiFi4.simulate (fun _ => 0) 0 wifi4.WiFi4.new (Env.mk 0 []) 0 100 =
      Except.ok
        { sim := wifi4.WiFi4.new
          env := Env.mk 0
            ["Input validation error: Number of users must be between 1 and 1000\n"]
          rounds := [] } ∧
    wifi4.WiFi4.simulate (fun _ => 0) 0 wifi4.WiFi4.new (Env.mk 0 []) 5 0 =
      Except.ok
        { sim := wifi4.WiFi4.new
          env := Env.mk 0
            ["Input validation error: Simulation duration must be between 1 and 10000 milliseconds\n"]
          rounds := [] } ∧
    (wifi6.WiFi6.new 100 4 80 1500).simulate 0 100 = Except.ok (wifi6.WiFi6.new 100 4 80 1500) ∧
    (wifi6.WiFi6.new 100 4 80 1500).simulate 5 0 = Except.ok (wifi6.WiFi6.new 100 4 80 1500) ∧
    wifi5.WiFi5.simulate (fun _ => 0) 1 wifi5.WiFi5.new (Env.mk 0 []) 5 0.0001 =
      Except.ok
        { sim := { totalThroughput := 171000000, latencies := [5] }
          env := Env.mk 8 []
          slots := [true] } := by
  refine ⟨by decide!, by decide!, rfl, rfl, by decide!⟩

/-! ## Gen-B (wifi5.cpp) theorems -/

namespace wifi5

theorem slotBody_spec (rand : Nat → Nat) (users : List User) (roundRobinIndex : Int)
    (multiplier : ℚ) (numUsers : Int) (s s' : Shared) (success : Bool)
    (h : slotBody rand users roundRobinIndex multiplier numUsers s = Except.ok (success, s')) :
    (∃ new, s'.sim.latencies = s.sim.latencies ++ new ∧ new.length = [success].count true) ∧
    s'.totalDataTransmitted
      = s.totalDataTransmitted + (([success].count true : Nat) : ℚ) * (1500 * 8) := by
  unfold slotBody at h
  split_ifs at h with hneg
  split at h
  · cases h
  · rename_i user hu
    simp only [User.transmit, callRand] at h
    cases hb : decide (rand s.env.randPos % 10 < 8)
    · simp only [hb, Bool.false_eq_true, if_false] at h
      cases h
      exact ⟨⟨[], by simp⟩, by simp⟩
    · simp only [hb, if_true] at h
      cases h
      refine ⟨⟨_, rfl, by simp⟩, ?_⟩
      simp only [Constants.PACKET_SIZE_BYTES]
      norm_num

theorem slotLoop_spec (rand : Nat → Nat) (users : List User) (multiplier : ℚ)
    (numUsers : Int) (duration : ℚ) :
    ∀ (fuel : Nat) (r r' : Run),
      whileLoop rand users multiplier numUsers duration fuel r = Except.ok r' →
      ∃ newSlots, r'.slots = r.slots ++ newSlots ∧
        (∃ new, r'.shared.sim.latencies = r.shared.sim.latencies ++ new ∧
          new.length = newSlots.count true) ∧
        r'.shared.totalDataTransmitted
          = r.shared.totalDataTransmitted + ((newSlots.count true : Nat) : ℚ) * (1500 * 8) := by
  intro fuel
  induction fuel with
  | zero =>
    intro r r' h
    simp only [whileLoop] at h
    split_ifs at h
    cases h
    exact ⟨[], by simp, ⟨[], by simp⟩, by simp⟩
  | succ fuel ih =>
    intro r r' h
    simp only [whileLoop] at h
    by_cases hc : r.shared.currentTime < duration
    · rw [if_pos hc] at h
      cases hs : slotBody rand users r.roundRobinIndex multiplier numUsers r.shared with
      | error f => rw [hs] at h; cases h
      | ok out =>
        obtain ⟨success, s⟩ := out
        rw [hs] at h
        simp only at h
        by_cases hz : numUsers = 0
        · rw [if_pos hz] at h; cases h
        · rw [if_neg hz] at h
          obtain ⟨⟨new1, a1, a2⟩, a3⟩ := slotBody_spec rand users _ _ _ _ _ _ hs
          obtain ⟨newSlots, b1, ⟨new2, b2, b3⟩, b4⟩ := ih _ r' h
          simp only at b1 b2 b4
          refine ⟨success :: newSlots, by rw [b1, List.append_assoc]; rfl,
            ⟨new1 ++ new2, ?_, ?_⟩, ?_⟩
          · rw [b2, a1, List.append_assoc]
          · simp only [List.length_append, a2, b3, List.count_cons, List.count_nil]
            omega
          · rw [b4, a3]
            simp only [List.count_cons, List.count_nil]
            push_cast
            ring
    · rw [if_neg hc] at h
      cases h
      exact ⟨[], by simp, ⟨[], by simp⟩, by simp⟩

theorem slotBody_latencies_ge (rand : Nat → Nat) (users : List User) (roundRobinIndex : Int)
    (multiplier : ℚ) (numUsers : Int) (s s' : Shared) (success : Bool)
    (h : slotBody rand users roundRobinIndex multiplier numUsers s = Except.ok (success, s'))
    (hs : ∀ x ∈ s.sim.latencies, 5 ≤ x) : ∀ x ∈ s'.sim.latencies, 5 ≤ x := by
  unfold slotBody at h
  split_ifs at h with hneg
  split at h
  · cases h
  · rename_i user hu
    simp only [User.transmit, callRand] at h
    cases hb : decide (rand s.env.randPos % 10 < 8)
    · simp only [hb, Bool.false_eq_true, if_false] at h
      cases h
      exact hs
    · simp only [hb, if_true] at h
      cases h
      intro x hx
      simp only [List.mem_append, List.mem_singleton] at hx
      rcases hx with hx | rfl
      · exact hs x hx
      · rw [stdMax_eq_max]
        refine le_trans ?_ (le_max_left _ _)
        norm_num

theorem slotLoop_latencies_ge (rand : Nat → Nat) (users : List User) (multiplier : ℚ)
    (numUsers : Int) (duration : ℚ) :
    ∀ (fuel : Nat) (r r' : Run),
      whileLoop rand users multiplier numUsers duration fuel r = Except.ok r' →
      (∀ x ∈ r.shared.sim.latencies, 5 ≤ x) → ∀ x ∈ r'.shared.sim.latencies, 5 ≤ x := by
  intro fuel
  induction fuel with
  | zero =>
    intro r r' h hr
    simp only [whileLoop] at h
    split_ifs at h
    cases h
    exact hr
  | succ fuel ih =>
    intro r r' h hr
    simp only [whileLoop] at h
    by_cases hc : r.shared.currentTime < duration
    · rw [if_pos hc] at h
      cases hs : slotBody rand users r.roundRobinIndex multiplier numUsers r.shared with
      | error f => rw [hs] at h; cases h
      | ok out =>
        obtain ⟨success, s⟩ := out
        rw [hs] at h
        simp only at h
        by_cases hz : numUsers = 0
        · rw [if_pos hz] at h; cases h
        · rw [if_neg hz] at h
          exact ih _ r' h (slotBody_latencies_ge rand users _ _ _ _ _ _ hs hr)
    · rw [if_neg hc] at h
      cases h
      exact hr

/-- Every latency that `WiFi5::simulate` records is at least 5: if the object held
only such latencies before a call, it holds only such latencies after it. -/
theorem wifi5_simulate_latencies_ge (rand : Nat → Nat) (fuel : Nat) (w : WiFi5) (env : Env)
    (numUsers : Int) (duration : ℚ) (r : Finished)
    (h : WiFi5.simulate rand fuel w env numUsers duration = Except.ok r)
    (hw : ∀ x ∈ w.latencies, 5 ≤ x) : ∀ x ∈ r.sim.latencies, 5 ≤ x := by
  simp only [WiFi5.simulate] at h
  split at h
  · cases h
  · rename_i r' hr'
    cases h
    exact slotLoop_latencies_ge rand _ _ numUsers duration fuel _ r' hr' hw

/-- C9: for numUsers >= 1 and duration > 0, whenever WiFi5::simulate returns, with k
the number of slots whose transmit succeeded, the stored throughput is
(k * 1500 * 8) * 1.5 * max(0.5, 1 - 0.01 * numUsers) / duration, calculateThroughput()
is that value / 1e6, and the latencies are those held before the call followed by
exactly k new ones; the failed slots enter neither. -/
theorem C9_wifi5_throughput_finalization (rand : Nat → Nat) (fuel : Nat) (w : WiFi5) (env : Env)
    (numUsers : Int) (duration : ℚ) (r : Finished)
    (_hn : 1 ≤ numUsers) (_hd : 0 < duration)
    (h : WiFi5.simulate rand fuel w env numUsers duration = Except.ok r) :
    r.sim.totalThroughput
      = (((r.slots.count true : Nat) : ℚ) * 1500 * 8) * 1.5
          * max 0.5 (1 - 0.01 * (numUsers : ℚ)) / duration ∧
    r.sim.calculateThroughput
      = (((r.slots.count true : Nat) : ℚ) * 1500 * 8) * 1.5
          * max 0.5 (1 - 0.01 * (numUsers : ℚ)) / duration / 1e6 ∧
    ∃ new, r.sim.latencies = w.latencies ++ new ∧ new.length = r.slots.count true := by
  simp only [WiFi5.simulate] at h
  split at h
  · cases h
  · rename_i r' hr'
    cases h
    obtain ⟨newSlots, b1, ⟨new, b2, b3⟩, b4⟩ := slotLoop_spec rand _ _ numUsers duration fuel _ r' hr'
    simp only [List.nil_append, zero_add] at b1 b2 b4
    have ht : r'.shared.totalDataTransmitted * 1.5 * stdMax 0.5 (1.0 - 0.01 * (numUsers : ℚ)) / duration
        = (((r'.slots.count true : Nat) : ℚ) * 1500 * 8) * 1.5
          * max 0.5 (1 - 0.01 * (numUsers : ℚ)) / duration := by
      rw [b4, b1, stdMax_eq_max]
      norm_num
      ring
    refine ⟨ht, ?_, ⟨new, b2, by rw [b1]; exact b3⟩⟩
    simp only [WiFi5.calculateThroughput]
    rw [ht]

/-- C9, at a concrete input: one user, duration 0.0002, a rand() stream on which the
first slot fails and the next two succeed; the latency 6 recorded before the call
stays in front. -/
theorem C9_wifi5_throughput_finalization_witness :
    (178200000 : ℚ)
      = ((([false, true, true].count true : Nat) : ℚ) * 1500 * 8) * 1.5
          * max 0.5 (1 - 0.01 * ((1 : Int) : ℚ)) / 0.0002 ∧
    ({ totalThroughput := 178200000, latencies := [6, 5, 6.001] } : WiFi5).calculateThroughput
      = ((([false, true, true].count true : Nat) : ℚ) * 1500 * 8) * 1.5
          * max 0.5 (1 - 0.01 * ((1 : Int) : ℚ)) / 0.0002 / 1e6 ∧
    ∃ new, [6, 5, 6.001] = [(6 : ℚ)] ++ new ∧ new.length = [false, true, true].count true :=
  C9_wifi5_throughput_finalization (fun n => 8 + n) 5 { WiFi5.new with latencies := [6] }
    (Env.mk 0 []) 1 0.0002
    { sim := { totalThroughput := 178200000, latencies := [6, 5, 6.001] }
      env := Env.mk 8 []
      slots := [false, true, true] }
    (by decide) (by norm_num) (by decide!)

end wifi5

end WiFiSim
